import Mathlib

/-!
Verification of the diplomacy-rest game engine.

This file gives a shallow embedding in Lean 4 of the core of
`diplomacy-server-utils.js` (the order adjudicator, the retreat and
adjustment resolvers, the phase machine, `claim_country`,
`submit_adjust_order` and `sanitized`) together with theorems that settle
the specification claims about those operations.

Conventions used throughout:
- JavaScript objects are embedded as Lean structures over `String` ids.
- Order objects are one flat structure with an `OrderType` tag, mirroring
  the JS objects, where unused fields default to the empty string.
- The mutable `result` fields are returned as separate lists.
- JS `undefined` is embedded as `Option.none`; the loose comparison
  `undefined == undefined` (true in JS) becomes equality on `Option`.
- The recursive resolver of `calculate_orders` memoizes final boolean
  resolutions for every order.  The adjudication logic (`adjudicate`,
  `any_convoy_route` and the strength computations, source lines 839-947)
  is embedded as pure functions over a resolution assignment
  `rho : Nat -> Bool` giving the resolution of each order index, so that
  `resolve(i)` inside `adjudicate` reads `rho i`.  A fixed point of the
  adjudication (`ConsistentResolution`) is exactly a resolution the
  resolver can terminate with outside of the backup rule.
-/

namespace Diplomacy

/-- Result states of an order (shared.orderResultEnum). -/
inductive OrderResult where
  | unprocessed
  | success
  | fail
  | dislodged
deriving DecidableEq, Repr

/-- Game phases (shared.phaseEnum). -/
inductive Phase where
  | countryClaiming
  | orderWriting
  | retreating
  | creatingDisbanding
deriving DecidableEq, Repr

/-- Seasons (shared.seasonEnum). -/
inductive Season where
  | Spring
  | Fall
deriving DecidableEq, Repr

/-- Order variants (shared.orderTypeEnum). -/
inductive OrderType where
  | hold
  | move
  | supportHold
  | supportMove
  | convoy
  | retreat
  | build
  | disband
  | pass
  | cancel
deriving DecidableEq, Repr

/-- Unit types (shared.unitTypeEnum). -/
inductive UnitType where
  | Army
  | Fleet
deriving DecidableEq, Repr

/-- A unit on the board: type, province id and coast name. -/
structure DipUnit where
  type : UnitType
  province : String
  coast : String := ""
deriving DecidableEq, Repr

/-- An order, embedded as one flat record tagged by `type`, mirroring the
JS order objects.  The JS fields `from` and `end` are Lean keywords and are
renamed `fromProv` and `endProv`. -/
structure Order where
  type : OrderType
  id : String
  province : String := ""
  dest : String := ""
  coast : String := ""
  isConvoy : Bool := false
  supporting : String := ""
  fromProv : String := ""
  start : String := ""
  endProv : String := ""
  country : String := ""
  unitType : UnitType := UnitType.Army
deriving DecidableEq, Repr

instance : Inhabited Order := ⟨{ type := OrderType.hold, id := "" }⟩

/-- Per-country entry of `state.nations`. -/
structure Nation where
  supplyCenters : List String := []
  units : List DipUnit := []
  neutral : Bool := false
  toBuild : Int := 0
deriving DecidableEq, Repr

/-- The portion of a game visible to the adjudicator: the per-country unit
lists of the current state and the players mapping. -/
structure Board where
  nations : List (String × Nation) := []
  players : List (String × String) := []
deriving DecidableEq, Repr

/-- Modelled from the spec: `get_unit`, the "unit at province" read accessor
of the shared GameData class (`diplomacy-shared-utils/utils.js`, which is not
part of this repository snapshot; section 4.B of the spec). -/
def Board.get_unit (b : Board) (province : String) : Option DipUnit :=
  (b.nations.flatMap (fun cn => cn.2.units)).find? (fun u => u.province == province)

/-- Modelled from the spec: `get_unit_owner_id`, the "owner of unit" accessor
of the shared GameData class (spec section 4.B): the country whose unit list
holds the unit at `province`. -/
def Board.get_unit_owner_id (b : Board) (province : String) : Option String :=
  (b.nations.find? (fun cn => cn.2.units.any (fun u => u.province == province))).map Prod.fst

/-- Modelled from the spec: `country_owner`, the "owner of country" accessor of
the shared GameData class (spec section 4.B): the username stored in the
players mapping. -/
def Board.country_owner (b : Board) (country : String) : Option String :=
  (b.players.find? (fun p => p.1 == country)).map Prod.snd

/-- Modelled from the spec: `get_unit_owner_player` of the shared GameData
class, the composition of `get_unit_owner_id` and `country_owner`. -/
def Board.get_unit_owner_player (b : Board) (province : String) : Option String :=
  (b.get_unit_owner_id province).bind (fun c => b.country_owner c)

/-- Embeds `same_team` (diplomacy-server-utils.js line 1158): the units at two
provinces are on the same team iff their owning players compare equal; the JS
comparison `undefined == undefined` holds, hence equality on `Option`. -/
def Board.same_team (b : Board) (pa pb : String) : Bool :=
  b.get_unit_owner_player pa == b.get_unit_owner_player pb

/-- Embeds `move_supports_ignore_teams` (line 1091). -/
def move_supports_ignore_teams (mv sup : Order) : Bool :=
  sup.type == OrderType.supportMove && mv.dest == sup.supporting && mv.province == sup.fromProv

/-- Embeds `move_supports` (line 1081). -/
def Board.move_supports (b : Board) (mv sup : Order) : Bool :=
  move_supports_ignore_teams mv sup && !(b.same_team mv.dest sup.province)

/-- Embeds `hold_supports` (line 1101). -/
def hold_supports (province : String) (sup : Order) : Bool :=
  sup.type == OrderType.supportHold && province == sup.supporting

/-! ## Retreat resolution (`calculate_retreats`, source lines 684-710) -/

/-- A retreat order (shared.RetreatOrder): ordered unit's origin province,
destination and destination coast. -/
structure RetreatOrder where
  id : String
  province : String
  dest : String
  coast : String := ""
deriving DecidableEq, Repr

/-- A `dislodgements` entry (source lines 671-675): the dislodged unit, the
attacker origin (empty if the attacker was convoyed) and the owning country.
The JS field `from` is a Lean keyword and is renamed `fromProv`. -/
structure Dislodgement where
  unit : DipUnit
  fromProv : String := ""
  country : String
deriving DecidableEq, Repr

/-- Embeds the result computation of `calculate_retreats` (source line 691):
a retreat fails iff some other submitted retreat (different id, in any
country) names the same destination. -/
def retreat_fails (retreats : List RetreatOrder) (r : RetreatOrder) : Bool :=
  retreats.any (fun q => q.id != r.id && q.dest == r.dest)

/-- The result stamped on a submitted retreat by `calculate_retreats`
(source lines 691-693). -/
def retreat_result (retreats : List RetreatOrder) (r : RetreatOrder) : OrderResult :=
  if retreat_fails retreats r then OrderResult.fail else OrderResult.success

/-- The unit spawned by a successful retreat (source lines 699-703): the
dislodged unit's type at the retreat's destination and coast. -/
def retreat_new_unit (dis : Dislodgement) (r : RetreatOrder) : DipUnit :=
  { province := r.dest, coast := r.coast, type := dis.unit.type }

/-- Embeds the JS push `this.state.nations[country].units.push(new_unit)`:
append `u` to the unit list of `country`. -/
def push_unit (nations : List (String × Nation)) (country : String) (u : DipUnit) :
    List (String × Nation) :=
  nations.map (fun cn =>
    if cn.1 == country then (cn.1, { cn.2 with units := cn.2.units ++ [u] }) else cn)

/-- The unit list of country `c` in a nations table (empty when `c` has no
entry). -/
def nations_units (nations : List (String × Nation)) (c : String) : List DipUnit :=
  ((nations.find? (fun cn => cn.1 == c)).map (fun cn => cn.2.units)).getD []

/-- One iteration of the `calculate_retreats` loop (source lines 690-707)
acting on the nations table of the new current state: the result test does
not depend on the table, so the loop body reduces to pushing the new unit of
each successful retreat.  A retreat whose province has no dislodgement entry
would crash the source; here it pushes nothing (submission guarantees the
entry exists). -/
def calculate_retreats_step (dislodgements : List (String × Dislodgement))
    (retreats : List RetreatOrder) (nations : List (String × Nation))
    (r : RetreatOrder) : List (String × Nation) :=
  if retreat_result retreats r == OrderResult.success then
    match dislodgements.find? (fun pd => pd.1 == r.province) with
    | some pd => push_unit nations pd.2.country (retreat_new_unit pd.2 r)
    | none => nations
  else nations

/-- Embeds the effect of `calculate_retreats` (source lines 684-710) on the
nations table of the new current state: fold the loop body over the flattened
list of submitted retreats. -/
def calculate_retreats_nations (dislodgements : List (String × Dislodgement))
    (retreats : List RetreatOrder) (nations : List (String × Nation)) :
    List (String × Nation) :=
  retreats.foldl (calculate_retreats_step dislodgements retreats) nations

/-- The units contributed to country `c` by the successful retreats of a run
of `calculate_retreats`, in submission order. -/
def retreat_added_units (dislodgements : List (String × Dislodgement))
    (retreats : List RetreatOrder) (c : String) : List DipUnit :=
  retreats.filterMap (fun q =>
    if retreat_result retreats q == OrderResult.success then
      match dislodgements.find? (fun pd => pd.1 == q.province) with
      | some pd => if pd.2.country == c then some (retreat_new_unit pd.2 q) else none
      | none => none
    else none)

lemma find?_push_unit (ns : List (String × Nation)) (c : String) (u : DipUnit)
    (c' : String) :
    (push_unit ns c u).find? (fun cn => cn.1 == c') =
      (ns.find? (fun cn => cn.1 == c')).map
        (fun cn => if cn.1 == c then (cn.1, { cn.2 with units := cn.2.units ++ [u] })
          else cn) := by
  have hp : ((fun cn : String × Nation => cn.1 == c') ∘
      (fun cn : String × Nation =>
        if cn.1 == c then (cn.1, { cn.2 with units := cn.2.units ++ [u] }) else cn)) =
      (fun cn : String × Nation => cn.1 == c') := by
    funext cn
    by_cases h : (cn.1 == c) = true <;> simp [Function.comp, h]
  unfold push_unit
  rw [List.find?_map, hp]

lemma nations_units_push (ns : List (String × Nation)) (c : String) (u : DipUnit)
    (c' : String) :
    nations_units (push_unit ns c u) c' =
      if c' = c ∧ (ns.find? (fun cn => cn.1 == c')).isSome then
        nations_units ns c' ++ [u]
      else nations_units ns c' := by
  unfold nations_units
  rw [find?_push_unit]
  cases hfind : ns.find? (fun cn => cn.1 == c') with
  | none => simp
  | some cn =>
    have hcn : (cn.1 == c') = true := by
      have := List.find?_some hfind
      simpa using this
    have hcn' : cn.1 = c' := beq_iff_eq.mp hcn
    by_cases h : c' = c
    · subst h
      simp [hcn']
    · simp [hcn', h]

lemma find_key_push (ns : List (String × Nation)) (c : String) (u : DipUnit)
    (c' : String) :
    ((push_unit ns c u).find? (fun cn => cn.1 == c')).isSome =
      (ns.find? (fun cn => cn.1 == c')).isSome := by
  rw [find?_push_unit]
  cases ns.find? (fun cn => cn.1 == c') <;> simp

lemma find_key_step (d : List (String × Dislodgement)) (full : List RetreatOrder)
    (ns : List (String × Nation)) (q : RetreatOrder) (c : String) :
    ((calculate_retreats_step d full ns q).find? (fun cn => cn.1 == c)).isSome =
      (ns.find? (fun cn => cn.1 == c)).isSome := by
  unfold calculate_retreats_step
  by_cases hs : (retreat_result full q == OrderResult.success) = true
  · rw [if_pos hs]
    cases hfind : d.find? (fun pd => pd.1 == q.province) with
    | none => rfl
    | some pd => exact find_key_push ns pd.2.country (retreat_new_unit pd.2 q) c
  · rw [if_neg hs]

lemma calc_retreats_fold_units (d : List (String × Dislodgement))
    (full : List RetreatOrder) (c : String) :
    ∀ (todo : List RetreatOrder) (ns : List (String × Nation)),
    (ns.find? (fun cn => cn.1 == c)).isSome = true →
      nations_units (todo.foldl (calculate_retreats_step d full) ns) c =
        nations_units ns c ++ todo.filterMap (fun q =>
          if retreat_result full q == OrderResult.success then
            match d.find? (fun pd => pd.1 == q.province) with
            | some pd =>
                if pd.2.country == c then some (retreat_new_unit pd.2 q) else none
            | none => none
          else none) := by
  intro todo
  induction todo with
  | nil => intro ns _; simp
  | cons q todo ih =>
    intro ns hkey
    have hkey' : ((calculate_retreats_step d full ns q).find?
        (fun cn => cn.1 == c)).isSome = true := by
      rw [find_key_step]; exact hkey
    have main := ih (calculate_retreats_step d full ns q) hkey'
    simp only [List.foldl_cons, List.filterMap_cons]
    rw [main]
    unfold calculate_retreats_step
    by_cases hs : (retreat_result full q == OrderResult.success) = true
    · rw [if_pos hs]
      cases hfind : d.find? (fun pd => pd.1 == q.province) with
      | none => simp [hs]
      | some pd =>
        by_cases hc : (pd.2.country == c) = true
        · have hceq : c = pd.2.country := (beq_iff_eq.mp hc).symm
          subst hceq
          rw [nations_units_push, if_pos ⟨rfl, hkey⟩]
          simp [hs, List.append_assoc]
        · rw [nations_units_push]
          have hcond : ¬(c = pd.2.country ∧
              (ns.find? (fun cn => cn.1 == c)).isSome = true) := by
            intro hand
            exact absurd (by simp [beq_iff_eq, hand.1] : (pd.2.country == c) = true) hc
          rw [if_neg hcond]
          simp [hs, hc]
    · rw [if_neg hs]
      have hs' : (retreat_result full q == OrderResult.success) = false := by
        simp_all
      simp [hs']

/-- C4: in `calculate_retreats`, a submitted RetreatOrder is marked fail iff
some other submitted retreat (in any country) names the same destination;
otherwise it is marked success and a unit of the dislodged unit's type is
appended to the new current state's nations list at the retreat's destination
with the retreat's coast (source lines 684-710). -/
theorem calculate_retreats_characterization
    (d : List (String × Dislodgement)) (retreats : List RetreatOrder)
    (ns : List (String × Nation)) (r : RetreatOrder) (pd : String × Dislodgement)
    (hr : r ∈ retreats)
    (hd : d.find? (fun x => x.1 == r.province) = some pd)
    (hkey : (ns.find? (fun cn => cn.1 == pd.2.country)).isSome = true) :
    (retreat_result retreats r = OrderResult.fail ↔
      ∃ q ∈ retreats, q.id ≠ r.id ∧ q.dest = r.dest) ∧
    (retreat_result retreats r = OrderResult.success →
      retreat_new_unit pd.2 r ∈
        nations_units (calculate_retreats_nations d retreats ns) pd.2.country) := by
  constructor
  · constructor
    · intro hf
      by_cases h : (retreat_fails retreats r) = true
      · rcases List.any_eq_true.mp h with ⟨q, hq, hqp⟩
        have hqp' : q.id ≠ r.id ∧ q.dest = r.dest := by
          simpa [bne_iff_ne] using hqp
        exact ⟨q, hq, hqp'⟩
      · rw [retreat_result, if_neg h] at hf
        exact absurd hf (by simp)
    · rintro ⟨q, hq, hne, hdest⟩
      have hfails : retreat_fails retreats r = true :=
        List.any_eq_true.mpr ⟨q, hq, by simp [bne_iff_ne, hne, hdest]⟩
      rw [retreat_result, if_pos hfails]
  · intro hsucc
    have heq := calc_retreats_fold_units d retreats pd.2.country retreats ns hkey
    unfold calculate_retreats_nations
    rw [heq]
    refine List.mem_append_right _ ?_
    refine List.mem_filterMap.mpr ⟨r, hr, ?_⟩
    simp [hsucc, hd]

def c4Retreat : RetreatOrder :=
  { id := "retreat par gas", province := "par", dest := "gas" }

def c4Dislodgement : Dislodgement :=
  { unit := { type := UnitType.Army, province := "par" }, fromProv := "mar",
    country := "france" }

def c4Nations : List (String × Nation) := [("france", { units := [] })]

/-- Witness for C4 at a concrete one-retreat game. -/
theorem calculate_retreats_characterization_witness :
    (retreat_result [c4Retreat] c4Retreat = OrderResult.fail ↔
      ∃ q ∈ [c4Retreat], q.id ≠ c4Retreat.id ∧ q.dest = c4Retreat.dest) ∧
    (retreat_result [c4Retreat] c4Retreat = OrderResult.success →
      retreat_new_unit ("par", c4Dislodgement).2 c4Retreat ∈
        nations_units
          (calculate_retreats_nations [("par", c4Dislodgement)] [c4Retreat] c4Nations)
          ("par", c4Dislodgement).2.country) :=
  calculate_retreats_characterization [("par", c4Dislodgement)] [c4Retreat] c4Nations
    c4Retreat ("par", c4Dislodgement) (by decide) (by decide) (by decide)

/-- C10: a retreat that fails in `calculate_retreats` (because another
submitted retreat names the same destination) destroys the dislodged unit: no
successful retreat targets the same destination, the only units appended to
the new state's nations lists are those of successful retreats, and none of
the appended units occupies the failed retreat's destination — the dislodged
unit itself (already off the board since `make_unit_retreat`) is never
re-added anywhere. -/
theorem failed_retreat_unit_destroyed
    (d : List (String × Dislodgement)) (retreats : List RetreatOrder)
    (ns : List (String × Nation)) (r : RetreatOrder)
    (hr : r ∈ retreats)
    (hnodup : (retreats.map RetreatOrder.id).Nodup)
    (hfail : retreat_result retreats r = OrderResult.fail) :
    (∀ q ∈ retreats, retreat_result retreats q = OrderResult.success →
      q.dest ≠ r.dest) ∧
    (∀ c, (ns.find? (fun cn => cn.1 == c)).isSome = true →
      nations_units (calculate_retreats_nations d retreats ns) c =
        nations_units ns c ++ retreat_added_units d retreats c) ∧
    (∀ c u, u ∈ retreat_added_units d retreats c → u.province ≠ r.dest) := by
  have hmain : ∀ q ∈ retreats, retreat_result retreats q = OrderResult.success →
      q.dest ≠ r.dest := by
    intro q hq hqs hqd
    by_cases hid : r.id = q.id
    · have : r = q := List.inj_on_of_nodup_map hnodup hr hq hid
      rw [this] at hfail
      rw [hfail] at hqs
      exact absurd hqs (by simp)
    · have hfails : retreat_fails retreats q = true :=
        List.any_eq_true.mpr ⟨r, hr, by simp [bne_iff_ne, hid, hqd]⟩
      rw [retreat_result, if_pos hfails] at hqs
      exact absurd hqs (by simp)
  refine ⟨hmain, ?_, ?_⟩
  · intro c hk
    exact calc_retreats_fold_units d retreats c retreats ns hk
  · intro c u hu hup
    rcases List.mem_filterMap.mp hu with ⟨q, hq, hqf⟩
    by_cases hs : (retreat_result retreats q == OrderResult.success) = true
    · rw [if_pos hs] at hqf
      cases hfind : d.find? (fun pd => pd.1 == q.province) with
      | none => rw [hfind] at hqf; simp at hqf
      | some pd =>
        rw [hfind] at hqf
        by_cases hc : (pd.2.country == c) = true
        · simp only [hc, if_true] at hqf
          have hprov : u.province = q.dest := by
            rw [← Option.some_inj.mp hqf]
            rfl
          exact hmain q hq (beq_iff_eq.mp hs) (by rw [← hprov, hup])
        · simp [hc] at hqf
    · rw [if_neg hs] at hqf
      simp at hqf

def c10Retreats : List RetreatOrder :=
  [{ id := "retreat par gas", province := "par", dest := "gas" },
   { id := "retreat bur gas", province := "bur", dest := "gas" }]

def c10Dislodgements : List (String × Dislodgement) :=
  [("par",
    { unit := { type := UnitType.Army, province := "par" },
      fromProv := "mar", country := "france" }),
   ("bur",
    { unit := { type := UnitType.Army, province := "bur" },
      fromProv := "mun", country := "germany" })]

def c10Nations : List (String × Nation) :=
  [("france", { units := [] }), ("germany", { units := [] })]

/-- Witness for C10 at a concrete two-retreat standoff. -/
theorem failed_retreat_unit_destroyed_witness :
    (∀ q ∈ c10Retreats, retreat_result c10Retreats q = OrderResult.success →
      q.dest ≠ (c10Retreats.get ⟨0, by decide⟩).dest) ∧
    (∀ c, (c10Nations.find? (fun cn => cn.1 == c)).isSome = true →
      nations_units (calculate_retreats_nations c10Dislodgements c10Retreats c10Nations) c =
        nations_units c10Nations c ++ retreat_added_units c10Dislodgements c10Retreats c) ∧
    (∀ c u, u ∈ retreat_added_units c10Dislodgements c10Retreats c →
      u.province ≠ (c10Retreats.get ⟨0, by decide⟩).dest) :=
  failed_retreat_unit_destroyed c10Dislodgements c10Retreats c10Nations
    (c10Retreats.get ⟨0, by decide⟩) (by decide) (by decide) (by decide)

/-! ## The sanitizer (`sanitized`, source lines 332-361)

`sanitized` deep-copies the game and, per phase, iterates the country keys
of the matching submission table of `this.state` — the LAST history entry —
deleting from that same entry of the copy the countries the viewer does not
own.  Orders are indeed stored on the last entry (`submit_normal_order`,
line 494), but retreats and adjustments are stored on the SECOND-TO-LAST
entry (`submit_retreat` line 514, `submit_adjust_order` line 535), and the
last entry pushed by `start_retreat_writing` carries no `retreats` or
`adjustments` key at all, so those two redaction branches iterate an
undefined table zero times and strip nothing. -/

/-- One serialized history entry as the sanitizer sees it: the per-country
submission tables, each `none` when the JS entry lacks the key
(`undefined`).  Orders and retreats are keyed country then province;
adjustments are per-country lists. -/
structure StateSubmissions where
  orders : Option (List (String × List (String × Order))) := none
  retreats : Option (List (String × List (String × RetreatOrder))) := none
  adjustments : Option (List (String × List Order)) := none
deriving DecidableEq, Repr, Inhabited

/-- The redaction `sanitized` applies to one submission table of the last
history entry: the JS loop ranges over the country keys of that same table
(zero iterations when the key is `undefined`, i.e. `none`) and deletes every
country the viewer does not own. -/
def strip_foreign_countries {α : Type} (b : Board) (username : String)
    (table : Option (List (String × α))) : Option (List (String × α)) :=
  table.map (fun t => t.filter (fun co => b.country_owner co.1 == some username))

/-- Apply `f` to the last element of a list (the JS
`obj.history[obj.history.length - 1]`). -/
def map_last {α : Type} (f : α → α) : List α → List α
  | [] => []
  | [a] => [f a]
  | a :: rest => a :: map_last f rest

/-- Embeds the redaction of `sanitized` (source lines 338-358) on the
serialized history: with a nonempty username, the branch of the current
phase strips the foreign country keys of the matching table of the LAST
history entry; every other history entry is returned untouched.  The empty
username (the JS falsy check at line 338) skips all stripping. -/
def sanitized (b : Board) (phase : Phase) (username : String)
    (history : List StateSubmissions) : List StateSubmissions :=
  if username == "" then history
  else if phase == Phase.orderWriting then
    map_last (fun st => { st with
      orders := strip_foreign_countries b username st.orders }) history
  else if phase == Phase.retreating then
    map_last (fun st => { st with
      retreats := strip_foreign_countries b username st.retreats }) history
  else if phase == Phase.creatingDisbanding then
    map_last (fun st => { st with
      adjustments := strip_foreign_countries b username st.adjustments }) history
  else history

def c5Board : Board :=
  { nations := [], players := [("france", "alice"), ("germany", "bob")] }

/-- The second-to-last history entry of a Retreating-phase game: both
countries have submitted retreats there, exactly where `submit_retreat`
stores them. -/
def c5FranceRetreat : RetreatOrder :=
  { id := "retreat par gas", province := "par", dest := "gas" }

def c5GermanyRetreat : RetreatOrder :=
  { id := "retreat mun boh", province := "mun", dest := "boh" }

def c5PrevEntry : StateSubmissions :=
  { retreats := some
      [("france", [("par", c5FranceRetreat)]),
       ("germany", [("mun", c5GermanyRetreat)])] }

/-- The last history entry, as `start_retreat_writing` pushes it: no
submission keys at all. -/
def c5LastEntry : StateSubmissions := {}

def c5History : List StateSubmissions := [c5PrevEntry, c5LastEntry]

def c5OwHistory : List StateSubmissions :=
  [{ orders := some [("france", []), ("germany", [])] }]

/-- C5 exhibits a code bug: with the game in the Retreating phase, the
retreat submissions live on the second-to-last history entry while the fresh
last entry has no retreats key, so `sanitized` — which iterates and strips
only the last entry — returns the history unchanged and the viewer bob
(germany) still receives France's in-flight retreat; the same happens to
adjustments during CreatingDisbanding.  This contradicts the claim, the
function's stated purpose of revealing no information, and spec section 8
property 6.  The OrderWriting branch, whose submissions do live on the last
entry, strips correctly: France's order entry is deleted and Germany's
retained. -/
theorem sanitized_retreat_leak_code_bug :
    sanitized c5Board Phase.retreating "bob" c5History = c5History ∧
    (∃ co ∈ (c5History.getD 0 default).retreats.getD [],
      co.1 = "france" ∧ co.2 ≠ []) ∧
    c5Board.country_owner "france" ≠ some "bob" ∧
    sanitized c5Board Phase.creatingDisbanding "bob" c5History = c5History ∧
    sanitized c5Board Phase.orderWriting "bob" c5OwHistory =
      [{ orders := some [("germany", [])] }] := by
  refine ⟨by decide, by decide, by decide, by decide, by decide⟩

/-! ## Claiming countries (`claim_country`, source lines 440-458) -/

/-- Modelled from the spec: `country_group` of the shared GameData class
(spec sections 3, 4.A: countryGroups are "sets of country ids that must be
claimed together").  A country in a declared group yields that group; a
playable country outside every declared group forms its own singleton group;
anything else has none and `claim_country` rejects it as not selectable. -/
def country_group (groups : List (List String)) (players : List (String × String))
    (country : String) : Option (List String) :=
  match groups.find? (fun g => g.contains country) with
  | some g => some g
  | none =>
    if (players.find? (fun p => p.1 == country)).isSome then some [country] else none

/-- The username stored for a country in a players mapping, or the empty
string when the country is absent (the JS `this.players[c]` falsy check). -/
def player_of (players : List (String × String)) (c : String) : String :=
  ((players.find? (fun p => p.1 == c)).map Prod.snd).getD ""

/-- Embeds `claim_country` (source lines 440-458) up to the final
`start_order_writing` trigger, which does not touch the players mapping:
claims are rejected outside the CountryClaiming phase, for non-selectable
countries and when a country of the group is already claimed by another user;
otherwise every country of the group is mapped to the claiming user and every
other country previously mapped to that user is released. -/
def claim_country (phase : Phase) (groups : List (List String))
    (players : List (String × String)) (username country : String) :
    Except String (List (String × String)) :=
  if phase != Phase.countryClaiming then
    Except.error "You cannot claim a country after the game has started."
  else
    match country_group groups players country with
    | none => Except.error "Country is not selectable."
    | some group =>
      if group.any (fun c => player_of players c != "" && player_of players c != username) then
        Except.error "You cannot claim a country that has already been claimed."
      else
        Except.ok (players.map (fun p =>
          if group.contains p.1 then (p.1, username)
          else if p.2 == username then (p.1, "") else p))

/-- C9: after every successful `claim_country` call during the
CountryClaiming phase, the set of countries mapped to the claiming user in
the players mapping is exactly the country group of the claimed country
(claiming silently releases every country the user held before), provided
every country of the group appears in the players mapping. -/
theorem claim_country_owned_set (groups : List (List String))
    (players players' : List (String × String)) (username country : String)
    (group : List String)
    (hu : username ≠ "")
    (hgrp : country_group groups players country = some group)
    (hsub : ∀ c ∈ group, ((players.find? (fun p => p.1 == c)).isSome) = true)
    (hok : claim_country Phase.countryClaiming groups players username country =
      Except.ok players') :
    ∀ c, ((players'.find? (fun p => p.1 == c)).map Prod.snd = some username) ↔
      c ∈ group := by
  have hfun : players' = players.map (fun p =>
      if group.contains p.1 then (p.1, username)
      else if p.2 == username then (p.1, "") else p) := by
    simp only [claim_country, hgrp, bne_self_eq_false, Bool.false_eq_true,
      if_false] at hok
    by_cases hblock : (group.any
        (fun c => player_of players c != "" && player_of players c != username)) = true
    · rw [if_pos hblock] at hok
      exact absurd hok (by simp)
    · rw [if_neg hblock] at hok
      exact (Except.ok.inj hok).symm
  subst hfun
  intro c
  have hp : ((fun p : String × String => p.1 == c) ∘ (fun p : String × String =>
      if group.contains p.1 then (p.1, username)
      else if p.2 == username then (p.1, "") else p)) =
      (fun p : String × String => p.1 == c) := by
    funext p
    by_cases h1 : p.1 ∈ group
    · simp [Function.comp, h1]
    · by_cases h2 : p.2 = username <;> simp [Function.comp, h1, h2]
  rw [List.find?_map, hp]
  cases hfind : players.find? (fun p => p.1 == c) with
  | none =>
    constructor
    · intro habs
      exact absurd habs (by simp)
    · intro hc
      have hs := hsub c hc
      rw [hfind] at hs
      exact absurd hs (by simp)
  | some p =>
    have hpc : p.1 = c := by
      have := List.find?_some hfind
      exact beq_iff_eq.mp (by simpa using this)
    by_cases hin : p.1 ∈ group
    · have hcg : c ∈ group := hpc ▸ hin
      simp [hin, hcg]
    · have hcg : c ∉ group := fun hmem => hin (hpc ▸ hmem)
      by_cases h2 : p.2 = username
      · simp [hin, h2, hcg]
        exact fun habs => hu habs.symm
      · simp [hin, h2, hcg]

def c9Players : List (String × String) :=
  [("england", ""), ("france", ""), ("germany", "bob")]

def c9Groups : List (List String) := [["england", "france"]]

/-- Witness for C9: alice claims england, which claims the england-france
group and releases nothing else. -/
theorem claim_country_owned_set_witness :
    (((
      [("england", "alice"), ("france", "alice"), ("germany", "bob")]
        : List (String × String)).find? (fun p => p.1 == "france")).map Prod.snd =
        some "alice") ↔ "france" ∈ ["england", "france"] :=
  claim_country_owned_set c9Groups c9Players
    [("england", "alice"), ("france", "alice"), ("germany", "bob")]
    "alice" "england" ["england", "france"]
    (by decide) (by decide) (by decide) (by rfl) "france"

/-! ## Adjustment submission (`submit_adjust_order`, source lines 522-549) -/

/-- Embeds `submit_adjust_order` (source lines 522-549).  The country's
stored owner, the previous state's `toBuild` quota and the ids of the valid
adjustment orders (`get_valid_build_orders` / `get_valid_disband_orders` live
in the shared utils outside this snapshot) are passed in directly; the stored
adjustment list of the previous state is returned on success, while every
thrown error leaves it untouched. -/
def submit_adjust_order (phase : Phase) (owner : Option String) (username : String)
    (to_build : Int) (validIds : List String) (submitted : List Order)
    (order : Order) : Except String (List Order) :=
  if phase != Phase.creatingDisbanding then
    Except.error "Cannot submit an adjustment order during this phase."
  else if owner != some username then
    Except.error "User has no control over this country."
  else if to_build == 0 then
    Except.error "Country cannot build or disband any units this turn."
  else if !(validIds.contains order.id) then
    Except.error "Adjustment is not valid."
  else if order.type != OrderType.pass && submitted.any (fun o => o.id == order.id) then
    Except.error "Adjustment order has already been submitted."
  else if submitted.length ≥ to_build.natAbs then
    match submitted.findIdx? (fun o => o.type == OrderType.pass) with
    | some i => Except.ok (submitted.eraseIdx i ++ [order])
    | none => Except.error "Country has already submitted its maximum number of adjustments."
  else Except.ok (submitted ++ [order])

/-- C7: `submit_adjust_order` enforces the per-country quota at submit time:
with the phase, ownership and validity checks passed, it throws (leaving the
stored adjustments unchanged) when `toBuild` is zero, when a non-Pass order
with an already-submitted id arrives, and when the quota is full with no
stored Pass; when the quota is full but a Pass is stored, the first stored
Pass is removed and the new order appended; and every successful submission
keeps the stored count at or below the absolute quota. -/
theorem submit_adjust_order_quota (owner : Option String) (username : String)
    (to_build : Int) (validIds : List String) (submitted : List Order) (order : Order)
    (howner : owner = some username)
    (hvalid : validIds.contains order.id = true) :
    (to_build = 0 →
      (submit_adjust_order Phase.creatingDisbanding owner username to_build validIds
        submitted order).isOk = false) ∧
    (to_build ≠ 0 → order.type ≠ OrderType.pass →
      (∃ o ∈ submitted, o.id = order.id) →
      (submit_adjust_order Phase.creatingDisbanding owner username to_build validIds
        submitted order).isOk = false) ∧
    (to_build ≠ 0 → (order.type = OrderType.pass ∨ ∀ o ∈ submitted, o.id ≠ order.id) →
      submitted.length ≥ to_build.natAbs → (∀ o ∈ submitted, o.type ≠ OrderType.pass) →
      (submit_adjust_order Phase.creatingDisbanding owner username to_build validIds
        submitted order).isOk = false) ∧
    (∀ i, to_build ≠ 0 → (order.type = OrderType.pass ∨ ∀ o ∈ submitted, o.id ≠ order.id) →
      submitted.length ≥ to_build.natAbs →
      submitted.findIdx? (fun o => o.type == OrderType.pass) = some i →
      (submit_adjust_order Phase.creatingDisbanding owner username to_build validIds
        submitted order) = Except.ok (submitted.eraseIdx i ++ [order])) ∧
    (∀ res, (submit_adjust_order Phase.creatingDisbanding owner username to_build validIds
        submitted order) = Except.ok res →
      submitted.length ≤ to_build.natAbs → res.length ≤ to_build.natAbs) := by
  subst howner
  have hphase : ((Phase.creatingDisbanding != Phase.creatingDisbanding) = true) = False := by
    simp
  have hown : ((some username != some username) = true) = False := by
    simp
  have hmem : order.id ∈ validIds := by
    simpa using hvalid
  refine ⟨?_, ?_, ?_, ?_, ?_⟩
  · intro h0
    simp [submit_adjust_order, Except.isOk, Except.toBool, h0]
  · intro h0 hpass hdup
    have hz : (to_build == 0) = false := by
      simpa using h0
    have hdup' : (order.type != OrderType.pass && submitted.any
        (fun o => o.id == order.id)) = true := by
      rcases hdup with ⟨o, ho, hoid⟩
      simp only [Bool.and_eq_true, bne_iff_ne]
      exact ⟨hpass, List.any_eq_true.mpr ⟨o, ho, beq_iff_eq.mpr hoid⟩⟩
    simp [submit_adjust_order, Except.isOk, Except.toBool, hz, hmem, hdup']
  · intro h0 hnodup hfull hnopass
    have hz : (to_build == 0) = false := by
      simpa using h0
    have hdup' : (order.type != OrderType.pass && submitted.any
        (fun o => o.id == order.id)) = false := by
      rcases hnodup with hpass | hids
      · simp [hpass]
      · have hany : submitted.any (fun o => o.id == order.id) = false := by
          rw [Bool.eq_false_iff]
          intro hany
          rcases List.any_eq_true.mp hany with ⟨o, ho, hid⟩
          exact hids o ho (beq_iff_eq.mp hid)
        simp [hany]
    have hfind : submitted.findIdx? (fun o => o.type == OrderType.pass) = none := by
      rw [List.findIdx?_eq_none_iff]
      intro o ho
      simpa using hnopass o ho
    simp [submit_adjust_order, Except.isOk, Except.toBool, hz, hmem, hdup', hfind, hfull]
  · intro i h0 hnodup hfull hfind
    have hz : (to_build == 0) = false := by
      simpa using h0
    have hdup' : (order.type != OrderType.pass && submitted.any
        (fun o => o.id == order.id)) = false := by
      rcases hnodup with hpass | hids
      · simp [hpass]
      · have hany : submitted.any (fun o => o.id == order.id) = false := by
          rw [Bool.eq_false_iff]
          intro hany
          rcases List.any_eq_true.mp hany with ⟨o, ho, hid⟩
          exact hids o ho (beq_iff_eq.mp hid)
        simp [hany]
    simp [submit_adjust_order, hz, hmem, hdup', hfull, hfind]
  · intro res hres hlen
    by_cases h0 : to_build = 0
    · simp [submit_adjust_order, Except.isOk, Except.toBool, h0] at hres
    · have hz : (to_build == 0) = false := by
        simpa using h0
      by_cases hdup : (order.type != OrderType.pass && submitted.any
          (fun o => o.id == order.id)) = true
      · simp [submit_adjust_order, hz, hmem, hdup] at hres
      · rw [Bool.not_eq_true] at hdup
        by_cases hfull : submitted.length ≥ to_build.natAbs
        · cases hfind : submitted.findIdx? (fun o => o.type == OrderType.pass) with
          | none =>
            simp [submit_adjust_order, hz, hmem, hdup, hfull, hfind] at hres
          | some i =>
            have hres' : res = submitted.eraseIdx i ++ [order] := by
              have := hres
              simp [submit_adjust_order, hz, hmem, hdup, hfull, hfind] at this
              exact this.symm
            subst hres'
            have hi : i < submitted.length := by
              rcases List.findIdx?_eq_some_iff_findIdx_eq.mp hfind with ⟨hlt, _⟩
              exact hlt
            rw [List.length_append, List.length_eraseIdx]
            simp only [hi, if_pos, List.length_singleton]
            omega
        · have hres' : res = submitted ++ [order] := by
            have := hres
            simp [submit_adjust_order, hz, hmem, hdup, hfull] at this
            exact this.symm
          subst hres'
          rw [List.length_append]
          simp only [List.length_singleton]
          omega

def c7Submitted : List Order :=
  [{ type := OrderType.pass, id := "pass italy", country := "italy" }]

def c7Order : Order :=
  { type := OrderType.build, id := "build italy rom army", country := "italy",
    province := "rom" }

/-- Witness for C7: italy has quota 1 filled by a Pass; a valid Build then
replaces the Pass and the count stays at the quota. -/
theorem submit_adjust_order_quota_witness :
    ((1 : Int) = 0 →
      (submit_adjust_order Phase.creatingDisbanding (some "carol") "carol" 1
        ["build italy rom army"] c7Submitted c7Order).isOk = false) ∧
    ((1 : Int) ≠ 0 → c7Order.type ≠ OrderType.pass →
      (∃ o ∈ c7Submitted, o.id = c7Order.id) →
      (submit_adjust_order Phase.creatingDisbanding (some "carol") "carol" 1
        ["build italy rom army"] c7Submitted c7Order).isOk = false) ∧
    ((1 : Int) ≠ 0 →
      (c7Order.type = OrderType.pass ∨ ∀ o ∈ c7Submitted, o.id ≠ c7Order.id) →
      c7Submitted.length ≥ (1 : Int).natAbs →
      (∀ o ∈ c7Submitted, o.type ≠ OrderType.pass) →
      (submit_adjust_order Phase.creatingDisbanding (some "carol") "carol" 1
        ["build italy rom army"] c7Submitted c7Order).isOk = false) ∧
    (∀ i, (1 : Int) ≠ 0 →
      (c7Order.type = OrderType.pass ∨ ∀ o ∈ c7Submitted, o.id ≠ c7Order.id) →
      c7Submitted.length ≥ (1 : Int).natAbs →
      c7Submitted.findIdx? (fun o => o.type == OrderType.pass) = some i →
      (submit_adjust_order Phase.creatingDisbanding (some "carol") "carol" 1
        ["build italy rom army"] c7Submitted c7Order) =
        Except.ok (c7Submitted.eraseIdx i ++ [c7Order])) ∧
    (∀ res, (submit_adjust_order Phase.creatingDisbanding (some "carol") "carol" 1
        ["build italy rom army"] c7Submitted c7Order) = Except.ok res →
      c7Submitted.length ≤ (1 : Int).natAbs → res.length ≤ (1 : Int).natAbs) :=
  submit_adjust_order_quota (some "carol") "carol" 1 ["build italy rom army"]
    c7Submitted c7Order (by rfl) (by decide)

/-! ## The phase machine (source lines 578-661, 684-710, 726-1062)

The phase and history effects of `calculate_orders`, `calculate_retreats` and
`calculate_adjustments` are embedded on a game record holding the phase and
the non-empty history (`past` plus the always-present current state, so that
`history = past ++ [current]`).  The adjudication core of `calculate_orders`
is embedded separately below; its only influence on phase and history is the
`any_retreats` flag (whether some dislodged unit had an order, source lines
1023-1034), which is taken as a parameter here and universally quantified in
the theorems. -/

/-- One history entry, restricted to the fields the phase machine reads. -/
structure PhaseState where
  date : Int
  season : Season
  nations : List (String × Nation) := []
  contested : List String := []
deriving DecidableEq, Repr

/-- A game as seen by the phase machine.  `supply_centers` is the id list of
the pruned map's supply-center provinces (`get_supply_centers`, shared
utils). -/
structure PhaseGame where
  phase : Phase
  past : List PhaseState := []
  current : PhaseState
  supply_centers : List String := []
deriving DecidableEq, Repr

/-- The history sequence of a game: every past entry followed by the current
state. -/
def PhaseGame.history (g : PhaseGame) : List PhaseState :=
  g.past ++ [g.current]

/-- Embeds `start_order_writing` (source lines 578-584); the per-country
order tables it clears are not part of `PhaseState`. -/
def start_order_writing (g : PhaseGame) : PhaseGame :=
  { g with phase := Phase.orderWriting }

/-- Embeds `start_retreat_writing` (source lines 591-611): push a new state
whose season alternates (advancing the date on Fall to Spring) and whose
nations table is a deep copy of the current one, and enter Retreating. -/
def start_retreat_writing (g : PhaseGame) : PhaseGame :=
  let newState : PhaseState :=
    if g.current.season == Season.Fall then
      { date := g.current.date + 1, season := Season.Spring, nations := g.current.nations }
    else
      { date := g.current.date, season := Season.Fall, nations := g.current.nations }
  { g with
      past := g.past ++ [g.current],
      current := newState,
      phase := Phase.retreating }

/-- Embeds the removal loop of `update_supply_centers` (source lines
626-632): remove the province from the supply-center list of the first
country that holds it. -/
def remove_supply_center_first :
    List (String × Nation) → String → List (String × Nation)
  | [], _ => []
  | cn :: tl, p =>
    if cn.2.supplyCenters.contains p then
      (cn.1, { cn.2 with supplyCenters := cn.2.supplyCenters.erase p }) :: tl
    else cn :: remove_supply_center_first tl p

/-- Append a province to a country's supply-center list (source line 635). -/
def add_supply_center (nations : List (String × Nation)) (country province : String) :
    List (String × Nation) :=
  nations.map (fun cn =>
    if cn.1 == country then
      (cn.1, { cn.2 with supplyCenters := cn.2.supplyCenters ++ [province] })
    else cn)

/-- One iteration of the `update_supply_centers` double loop (source lines
619-638) for the unit of `country` standing at `province`. -/
def update_supply_centers_step (supply_centers : List String)
    (nations : List (String × Nation)) (country province : String) :
    List (String × Nation) :=
  if supply_centers.contains province &&
      !(((nations.find? (fun cn => cn.1 == country)).map
        (fun cn => cn.2.supplyCenters)).getD []).contains province then
    add_supply_center (remove_supply_center_first nations province) country province
  else nations

/-- Embeds `update_supply_centers` (source lines 616-639): for every unit, in
country-then-unit order, its standing province (when a supply center) is
transferred to its country.  The mutation touches only supply-center lists,
so the iteration ranges over the units of the incoming table. -/
def update_supply_centers (supply_centers : List String)
    (nations : List (String × Nation)) : List (String × Nation) :=
  (nations.flatMap (fun cn => cn.2.units.map (fun u => (cn.1, u.province)))).foldl
    (fun ns cu => update_supply_centers_step supply_centers ns cu.1 cu.2) nations

/-- Embeds the `toBuild` bookkeeping of `start_creating_and_disbanding`
(source lines 651-655) on the previous history entry: every country present
there receives `supplyCenters.length - units.length` computed from the
current state (a country of the current state missing from the previous entry
would crash the source and is skipped here). -/
def set_prev_toBuild (g : PhaseGame) : PhaseGame :=
  match g.past.getLast? with
  | none => g
  | some prev =>
    let prevNations := prev.nations.map (fun cn =>
      match g.current.nations.find? (fun dn => dn.1 == cn.1) with
      | some dn =>
          (cn.1, { cn.2 with
            toBuild := (dn.2.supplyCenters.length : Int) - dn.2.units.length })
      | none => cn)
    { g with past := g.past.dropLast ++ [{ prev with nations := prevNations }] }

/-- Embeds `start_creating_and_disbanding` (source lines 644-661): at the
start of a Spring turn (current season Spring, i.e. the closing turn was
Fall), enter CreatingDisbanding after re-assigning supply centers and storing
each country's `toBuild` on the previous entry; otherwise skip straight back
to OrderWriting. -/
def start_creating_and_disbanding (g : PhaseGame) : PhaseGame :=
  if g.current.season == Season.Spring then
    set_prev_toBuild
      { g with
          phase := Phase.creatingDisbanding,
          current := { g.current with
            nations := update_supply_centers g.supply_centers g.current.nations } }
  else start_order_writing g

/-- Embeds the phase and history effects of `calculate_orders` (source lines
726-1062): adjudication requires OrderWriting, appends the retreat-phase
state via `start_retreat_writing`, and when no dislodged unit had an order
(`any_retreats` false) proceeds directly to `start_creating_and_disbanding`. -/
def calculate_orders_phases (g : PhaseGame) (any_retreats : Bool) :
    Except String PhaseGame :=
  if g.phase != Phase.orderWriting then
    Except.error "Can only adjudicate orders during order writing phase."
  else
    let g1 := start_retreat_writing g
    Except.ok (if any_retreats then g1 else start_creating_and_disbanding g1)

/-- Embeds the phase and history effects of `calculate_retreats` (source
lines 684-710): it requires Retreating, applies the submitted retreats to the
current nations table and calls `start_creating_and_disbanding`. -/
def calculate_retreats_phases (g : PhaseGame)
    (dislodgements : List (String × Dislodgement)) (retreats : List RetreatOrder) :
    Except String PhaseGame :=
  if g.phase != Phase.retreating then
    Except.error "Can only process retreats during retreating phase."
  else
    Except.ok (start_creating_and_disbanding
      { g with current := { g.current with
          nations := calculate_retreats_nations dislodgements retreats
            g.current.nations } })

/-- Embeds the JS `remove_unit` (source lines 425-433): drop the unit at the
province from its owner's list. -/
def remove_unit (nations : List (String × Nation)) (province : String) :
    List (String × Nation) :=
  match nations.find? (fun cn => cn.2.units.any (fun u => u.province == province)) with
  | some cn0 =>
    nations.map (fun cn =>
      if cn.1 == cn0.1 then
        (cn.1, { cn.2 with units := cn.2.units.filter (fun u => u.province != province) })
      else cn)
  | none => nations

/-- Modelled from the spec: `calculate_adjustments` lives in the shared utils
outside this snapshot (it is called by the test driver).  Spec sections 4.E
and 2: adjudication of the CreatingDisbanding phase applies all submitted
Builds (spawning units) and Disbands (removing units) atomically to the
current state, then the transition `CreatingDisbanding -> OrderWriting`
returns the game to order writing; no history entry is appended. -/
def calculate_adjustments_phases (g : PhaseGame) (adjustments : List Order) :
    Except String PhaseGame :=
  if g.phase != Phase.creatingDisbanding then
    Except.error "Can only process adjustments during the creating and disbanding phase."
  else
    let ns := adjustments.foldl (fun ns o =>
      match o.type with
      | OrderType.build =>
          push_unit ns o.country
            { type := o.unitType, province := o.province, coast := o.coast }
      | OrderType.disband => remove_unit ns o.province
      | _ => ns) g.current.nations
    Except.ok (start_order_writing { g with current := { g.current with nations := ns } })

lemma set_prev_toBuild_phase (g : PhaseGame) : (set_prev_toBuild g).phase = g.phase := by
  unfold set_prev_toBuild
  cases g.past.getLast? <;> rfl

lemma set_prev_toBuild_past_length (g : PhaseGame) :
    (set_prev_toBuild g).past.length = g.past.length := by
  unfold set_prev_toBuild
  cases hl : g.past.getLast? with
  | none => rfl
  | some prev =>
    have hne : g.past ≠ [] := by
      intro he
      rw [he] at hl
      exact absurd hl (by simp)
    have hpos : 0 < g.past.length := List.length_pos.mpr hne
    simp [List.length_dropLast]
    omega

lemma scad_phase_spring (g : PhaseGame) (hs : g.current.season = Season.Spring) :
    (start_creating_and_disbanding g).phase = Phase.creatingDisbanding := by
  unfold start_creating_and_disbanding
  rw [if_pos (by simp [hs])]
  rw [set_prev_toBuild_phase]

lemma scad_phase_fall (g : PhaseGame) (hs : g.current.season = Season.Fall) :
    (start_creating_and_disbanding g).phase = Phase.orderWriting := by
  unfold start_creating_and_disbanding
  rw [if_neg (by simp [hs])]
  rfl

lemma scad_history_length (g : PhaseGame) :
    (start_creating_and_disbanding g).history.length = g.history.length := by
  unfold start_creating_and_disbanding
  by_cases hs : (g.current.season == Season.Spring) = true
  · rw [if_pos hs]
    simp [PhaseGame.history, set_prev_toBuild_past_length]
  · rw [if_neg hs]
    rfl

lemma srw_history_length (g : PhaseGame) :
    (start_retreat_writing g).history.length = g.history.length + 1 := by
  simp [start_retreat_writing, PhaseGame.history]

lemma srw_phase (g : PhaseGame) : (start_retreat_writing g).phase = Phase.retreating := rfl

lemma cr_phases_ok (g : PhaseGame) (hp : g.phase = Phase.retreating)
    (d : List (String × Dislodgement)) (r : List RetreatOrder) :
    calculate_retreats_phases g d r = Except.ok (start_creating_and_disbanding
      { g with current := { g.current with
          nations := calculate_retreats_nations d r g.current.nations } }) := by
  simp [calculate_retreats_phases, hp]

lemma ca_phases_ok (g : PhaseGame) (hp : g.phase = Phase.creatingDisbanding)
    (adjustments : List Order) :
    ∃ g3, calculate_adjustments_phases g adjustments = Except.ok g3 ∧
      g3.phase = Phase.orderWriting ∧ g3.history.length = g.history.length := by
  refine ⟨start_order_writing { g with current := { g.current with
      nations := adjustments.foldl (fun ns o =>
        match o.type with
        | OrderType.build =>
            push_unit ns o.country
              { type := o.unitType, province := o.province, coast := o.coast }
        | OrderType.disband => remove_unit ns o.province
        | _ => ns) g.current.nations } }, ?_, rfl, ?_⟩
  · simp [calculate_adjustments_phases, hp]
  · simp [start_order_writing, PhaseGame.history]

/-- C8: from the OrderWriting phase, running `calculate_orders`, then
`calculate_retreats` whenever the game entered Retreating (some unit was
dislodged), then `calculate_adjustments` whenever the game entered
CreatingDisbanding (the turn flipped Fall to Spring), always returns the game
to OrderWriting with the history exactly one entry longer. -/
theorem turn_pipeline_phase_and_history (g : PhaseGame) (any_retreats : Bool)
    (dislodgements : List (String × Dislodgement)) (retreats : List RetreatOrder)
    (adjustments : List Order) (h : g.phase = Phase.orderWriting) :
    ∃ g1 g2 g3,
      calculate_orders_phases g any_retreats = Except.ok g1 ∧
      (if g1.phase = Phase.retreating then
        calculate_retreats_phases g1 dislodgements retreats
       else Except.ok g1) = Except.ok g2 ∧
      (if g2.phase = Phase.creatingDisbanding then
        calculate_adjustments_phases g2 adjustments
       else Except.ok g2) = Except.ok g3 ∧
      g3.phase = Phase.orderWriting ∧
      g3.history.length = g.history.length + 1 := by
  have hco : calculate_orders_phases g any_retreats = Except.ok
      (if any_retreats then start_retreat_writing g
       else start_creating_and_disbanding (start_retreat_writing g)) := by
    simp [calculate_orders_phases, h]
  cases any_retreats with
  | true =>
    simp only [if_true] at hco
    set g1 := start_retreat_writing g with hg1
    have hp1 : g1.phase = Phase.retreating := rfl
    set g1' : PhaseGame := { g1 with current := { g1.current with
      nations := calculate_retreats_nations dislodgements retreats
        g1.current.nations } } with hg1'
    have hcr : (if g1.phase = Phase.retreating then
        calculate_retreats_phases g1 dislodgements retreats
       else Except.ok g1) = Except.ok (start_creating_and_disbanding g1') := by
      rw [if_pos hp1, cr_phases_ok g1 hp1]
    have hlen1' : g1'.history.length = g.history.length + 1 := by
      rw [hg1']
      simp only [PhaseGame.history, List.length_append]
      have := srw_history_length g
      simp only [PhaseGame.history, List.length_append] at this
      simpa using this
    cases hseason : g1'.current.season with
    | Spring =>
      have hp2 : (start_creating_and_disbanding g1').phase = Phase.creatingDisbanding :=
        scad_phase_spring g1' hseason
      rcases ca_phases_ok (start_creating_and_disbanding g1') hp2 adjustments with
        ⟨g3, hca, hp3, hlen3⟩
      refine ⟨g1, start_creating_and_disbanding g1', g3, hco, hcr, ?_, hp3, ?_⟩
      · rw [if_pos hp2, hca]
      · rw [hlen3, scad_history_length, hlen1']
    | Fall =>
      have hp2 : (start_creating_and_disbanding g1').phase = Phase.orderWriting :=
        scad_phase_fall g1' hseason
      refine ⟨g1, start_creating_and_disbanding g1', start_creating_and_disbanding g1',
        hco, hcr, ?_, hp2, ?_⟩
      · rw [if_neg (by rw [hp2]; intro hcd; cases hcd)]
      · rw [scad_history_length, hlen1']
  | false =>
    simp only [if_false] at hco
    set g1 := start_creating_and_disbanding (start_retreat_writing g) with hg1
    have hlen1 : g1.history.length = g.history.length + 1 := by
      rw [hg1, scad_history_length, srw_history_length]
    cases hseason : (start_retreat_writing g).current.season with
    | Spring =>
      have hp1 : g1.phase = Phase.creatingDisbanding := by
        rw [hg1]
        exact scad_phase_spring _ hseason
      have hcr : (if g1.phase = Phase.retreating then
          calculate_retreats_phases g1 dislodgements retreats
         else Except.ok g1) = Except.ok g1 := by
        rw [if_neg (by rw [hp1]; intro hcd; cases hcd)]
      rcases ca_phases_ok g1 hp1 adjustments with ⟨g3, hca, hp3, hlen3⟩
      refine ⟨g1, g1, g3, hco, hcr, ?_, hp3, ?_⟩
      · rw [if_pos hp1, hca]
      · rw [hlen3, hlen1]
    | Fall =>
      have hp1 : g1.phase = Phase.orderWriting := by
        rw [hg1]
        exact scad_phase_fall _ hseason
      refine ⟨g1, g1, g1, hco, ?_, ?_, hp1, hlen1⟩
      · rw [if_neg (by rw [hp1]; intro hcd; cases hcd)]
      · rw [if_neg (by rw [hp1]; intro hcd; cases hcd)]

def c8Game : PhaseGame :=
  { phase := Phase.orderWriting,
    past := [{ date := 1901, season := Season.Spring }],
    current :=
      { date := 1901,
        season := Season.Fall,
        nations := [("france", { supplyCenters := ["par"], units := [] })] },
    supply_centers := ["par"] }

/-- Witness for C8 at a concrete Fall turn with no dislodgements: the
pipeline ends back in OrderWriting with one extra history entry. -/
theorem turn_pipeline_phase_and_history_witness :
    ∃ g1 g2 g3,
      calculate_orders_phases c8Game false = Except.ok g1 ∧
      (if g1.phase = Phase.retreating then
        calculate_retreats_phases g1 [] []
       else Except.ok g1) = Except.ok g2 ∧
      (if g2.phase = Phase.creatingDisbanding then
        calculate_adjustments_phases g2 []
       else Except.ok g2) = Except.ok g3 ∧
      g3.phase = Phase.orderWriting ∧
      g3.history.length = c8Game.history.length + 1 :=
  turn_pipeline_phase_and_history c8Game false [] [] [] (by rfl)

/-! ## The adjudicator core (source lines 839-947)

The decision logic of `adjudicate` is embedded relative to a resolution
assignment `rho : Nat -> Bool`: every `resolve(i)` occurring inside
`adjudicate`, `any_convoy_route` and the strength closures reads `rho i`.
`ConsistentResolution` singles out the fixed points, i.e. the final
memoized resolutions the recursive resolver reaches on inputs settled
without the backup rule. -/

/-- Modelled from the spec: `get_adjacencies_ignore_coasts` of the shared
GameData class (spec sections 3 and 4.A): the coast-agnostic adjacency used
for convoy path existence, read off the map's route pairs. -/
def get_adjacencies_ignore_coasts (routes : List (String × String)) (p : String) :
    List String :=
  (routes.filter (fun r => r.1 == p)).map Prod.snd ++
    (routes.filter (fun r => r.2 == p)).map Prod.fst

/-- The inner recursion of `all_convoy_routes` (source lines 1123-1143).  The
fuel argument bounds the recursion depth; the source recursion terminates
because `ignore` grows at each call, so `provinces.length + 1` fuel always
suffices. -/
def convoy_routes_rec (routes : List (String × String)) (provinces : List String)
    (endProv : String) : Nat → String → List String → List (List String)
  | 0, _, _ => []
  | fuel + 1, fromProv, ignore =>
    if fromProv == endProv then [[]]
    else
      let filtered := provinces.filter (fun p => !(ignore.contains p))
      if filtered.isEmpty then []
      else
        let adj := get_adjacencies_ignore_coasts routes fromProv
        let filtered_adj := adj.filter (fun p => filtered.contains p)
        (filtered_adj.map (fun p =>
          (convoy_routes_rec routes provinces endProv fuel p (ignore ++ [p])).map
            (fun r => if p == endProv then r else p :: r))).flatten

/-- Embeds `all_convoy_routes` (source lines 1112-1150): the distinct convoy
routes from `startProv` to `endProv` through provinces holding a matching
Convoy order, returned as lists of order indices. -/
def all_convoy_routes (routes : List (String × String)) (orders : List Order)
    (startProv endProv : String) : List (List Nat) :=
  let provinces := ((orders.filter (fun o => o.type == OrderType.convoy &&
    o.start == startProv && o.endProv == endProv)).map (fun o => o.province)) ++ [endProv]
  let indices := provinces.map (fun p => orders.findIdx (fun o => o.province == p))
  ((convoy_routes_rec routes provinces endProv (provinces.length + 1) startProv []).filter
    (fun r => !r.isEmpty)).map
    (fun route => route.map (fun p => indices.getD (provinces.indexOf p) 0))

/-- Embeds `any_convoy_route` (source lines 839-856): a convoy move order
works iff some convoy route resolves fully true; any non-convoy order works
trivially. -/
def any_convoy_route (routes : List (String × String)) (orders : List Order)
    (rho : Nat → Bool) (o : Order) : Bool :=
  if o.isConvoy then
    (all_convoy_routes routes orders o.province o.dest).any
      (fun route => route.all (fun i => rho i))
  else true

/-- The `strength` closure of the move case (source line 884): resolved
supports of the move, team-checked. -/
def strength (b : Board) (orders : List Order) (rho : Nat → Bool) (ord : Order) : Nat :=
  ((List.range orders.length).filter (fun i =>
    b.move_supports ord (orders.getD i default) && rho i)).length

/-- The `strength_ignore_teams` closure (source line 885). -/
def strength_ignore_teams (orders : List Order) (rho : Nat → Bool) (ord : Order) : Nat :=
  ((List.range orders.length).filter (fun i =>
    move_supports_ignore_teams ord (orders.getD i default) && rho i)).length

/-- The `def_strength` closure (source line 886): resolved hold supports for
the unit at `p`. -/
def def_strength (orders : List Order) (rho : Nat → Bool) (p : String) : Nat :=
  ((List.range orders.length).filter (fun i =>
    hold_supports p (orders.getD i default) && rho i)).length

/-- The index of the move order issued to the unit standing at `dest` (source
line 892); `orders.length` encodes the JS -1 (not found). -/
def holding_unit_move_order (orders : List Order) (dest : String) : Nat :=
  orders.findIdx (fun o => o.type == OrderType.move && o.province == dest)

/-- The `hold_strength` computation (source lines 891-897). -/
def hold_strength (b : Board) (orders : List Order) (rho : Nat → Bool)
    (dest : String) : Nat :=
  let holding_unit := b.get_unit dest
  let hmo := holding_unit_move_order orders dest
  if !holding_unit.isSome || (decide (hmo < orders.length) && rho hmo) then 0
  else if hmo < orders.length then 1
  else 1 + def_strength orders rho dest

/-- The `is_hth_battle` test (source line 902): a head-to-head battle holds
iff the destination unit has a move order back to the attacker's province and
neither move is convoyed. -/
def is_hth_battle (orders : List Order) (order : Order) : Bool :=
  let hmo := holding_unit_move_order orders order.dest
  decide (hmo < orders.length) && !order.isConvoy &&
    !(orders.getD hmo default).isConvoy &&
    (orders.getD hmo default).dest == order.province

/-- The `attack_strength` computation (source lines 899-907). -/
def attack_strength (b : Board) (orders : List Order) (rho : Nat → Bool)
    (order : Order) : Nat :=
  let holding_unit := b.get_unit order.dest
  let hmo := holding_unit_move_order orders order.dest
  let hmoMoves := decide (hmo < orders.length) && rho hmo
  if !holding_unit.isSome || (!(is_hth_battle orders order) && hmoMoves) then
    1 + strength_ignore_teams orders rho order
  else if b.same_team order.province order.dest && !hmoMoves then 0
  else 1 + strength b orders rho order

/-- The `defend_strength` computation of a head-to-head battle (source line
919). -/
def defend_strength (orders : List Order) (rho : Nat → Bool) (order : Order) : Nat :=
  1 + strength_ignore_teams orders rho
    (orders.getD (holding_unit_move_order orders order.dest) default)

/-- The competing attacks on the move's destination (source line 910), as
order indices. -/
def other_attacks (orders : List Order) (orderIndex : Nat) (order : Order) : List Nat :=
  (List.range orders.length).filter (fun i =>
    i != orderIndex && (orders.getD i default).type == OrderType.move &&
      (orders.getD i default).dest == order.dest)

/-- The `prevent_strength` computation for a competing attack (source lines
928-931). -/
def prevent_strength (routes : List (String × String))
    (orders : List Order) (rho : Nat → Bool) (attack : Order) : Nat :=
  let successful_hth := (List.range orders.length).any (fun i =>
    let o := orders.getD i default
    o.type == OrderType.move && o.province == attack.dest &&
      o.dest == attack.province && !o.isConvoy && !attack.isConvoy && rho i)
  if successful_hth || !(any_convoy_route routes orders rho attack) then 0
  else 1 + strength_ignore_teams orders rho attack

/-- Embeds `adjudicate` (source lines 861-947) relative to the resolution
assignment.  The JS switch has no case for the remaining order types (it
returns `undefined`, which is falsy); those orders never occur during order
adjudication and map to `false`. -/
def adjudicate (b : Board) (routes : List (String × String)) (orders : List Order)
    (rho : Nat → Bool) (orderIndex : Nat) : Bool :=
  let order := orders.getD orderIndex default
  match order.type with
  | OrderType.hold => true
  | OrderType.supportHold | OrderType.supportMove =>
    !((List.range orders.length).any (fun i =>
      let o := orders.getD i default
      o.type == OrderType.move && o.dest == order.province &&
        !(b.same_team o.province order.province) &&
        (o.province != order.supporting || rho i) &&
        any_convoy_route routes orders rho o))
  | OrderType.move =>
    if !(any_convoy_route routes orders rho order) then false
    else
      let atk := attack_strength b orders rho order
      if (if is_hth_battle orders order then defend_strength orders rho order ≥ atk
          else hold_strength b orders rho order.dest ≥ atk) then false
      else
        (other_attacks orders orderIndex order).all (fun i =>
          decide (prevent_strength routes orders rho (orders.getD i default) < atk))
  | OrderType.convoy =>
    !((List.range orders.length).any (fun i =>
      let o := orders.getD i default
      o.type == OrderType.move && o.dest == order.province &&
        !(b.same_team o.province order.province) && rho i))
  | _ => false

/-- A resolution assignment is consistent when every order resolves to its
adjudicated value: the fixed point the recursive resolver memoizes on inputs
settled without the backup rule. -/
def ConsistentResolution (b : Board) (routes : List (String × String))
    (orders : List Order) (rho : Nat → Bool) : Prop :=
  ∀ i < orders.length, rho i = adjudicate b routes orders rho i

instance (b : Board) (routes : List (String × String)) (orders : List Order)
    (rho : Nat → Bool) : Decidable (ConsistentResolution b routes orders rho) :=
  inferInstanceAs (Decidable (∀ i < orders.length, _ = _))

/-- C2 (amended): for a consistent resolution, a SupportHold or SupportMove
order fails iff some move order attacks the supporter's province from a
non-teammate with a working convoy route (or no convoy), arriving either from
a province other than the one being supported into or — the source's extra
disjunct — with a successfully resolving move; in all other cases it
succeeds. -/
theorem support_cut_characterization (b : Board) (routes : List (String × String))
    (orders : List Order) (rho : Nat → Bool) (i : Nat)
    (hcons : ConsistentResolution b routes orders rho)
    (hi : i < orders.length)
    (hs : (orders.getD i default).type = OrderType.supportHold ∨
      (orders.getD i default).type = OrderType.supportMove) :
    rho i = false ↔ ∃ j < orders.length,
      (orders.getD j default).type = OrderType.move ∧
      (orders.getD j default).dest = (orders.getD i default).province ∧
      b.same_team (orders.getD j default).province (orders.getD i default).province
        = false ∧
      ((orders.getD j default).province ≠ (orders.getD i default).supporting ∨
        rho j = true) ∧
      any_convoy_route routes orders rho (orders.getD j default) = true := by
  rw [hcons i hi]
  have key : adjudicate b routes orders rho i =
      !((List.range orders.length).any (fun j =>
        let o := orders.getD j default
        o.type == OrderType.move && o.dest == (orders.getD i default).province &&
          !(b.same_team o.province (orders.getD i default).province) &&
          (o.province != (orders.getD i default).supporting || rho j) &&
          any_convoy_route routes orders rho o)) := by
    unfold adjudicate
    dsimp only
    rcases hs with h | h <;> rw [h]
  rw [key]
  simp only [Bool.not_eq_false', List.any_eq_true, List.mem_range]
  constructor
  · rintro ⟨j, hj, hcond⟩
    refine ⟨j, hj, ?_⟩
    simp only [Bool.and_eq_true, Bool.or_eq_true, bne_iff_ne, beq_iff_eq,
      Bool.not_eq_true'] at hcond
    tauto
  · rintro ⟨j, hj, hcond⟩
    refine ⟨j, hj, ?_⟩
    simp only [Bool.and_eq_true, Bool.or_eq_true, bne_iff_ne, beq_iff_eq,
      Bool.not_eq_true']
    tauto

def c2Board : Board :=
  { nations :=
      [("germany", { units := [{ type := UnitType.Army, province := "mun" }] }),
       ("france", { units :=
          [{ type := UnitType.Army, province := "bur" },
           { type := UnitType.Army, province := "ruh" },
           { type := UnitType.Army, province := "par" }] })],
    players := [("germany", "gerd"), ("france", "fra")] }

def c2Orders : List Order :=
  [{ type := OrderType.supportMove, id := "s mun", province := "mun",
     supporting := "bur", fromProv := "par" },
   { type := OrderType.move, id := "m bur mun", province := "bur", dest := "mun" },
   { type := OrderType.supportMove, id := "s ruh", province := "ruh",
     supporting := "mun", fromProv := "bur" },
   { type := OrderType.move, id := "m par bur", province := "par", dest := "bur" }]

def c2Rho : Nat → Bool := fun i => i != 0

/-- Counterexample to C2 as stated: in a consistent resolution, the German
support at mun (supporting the move into bur) is cut and fails, yet the only
attack on mun arrives exactly from bur — the province being supported into —
so the claim's support-cut condition (i) rejects every cutting move and
predicts success.  The source also cuts support from the supported-into
direction when that attack resolves successfully. -/
theorem support_cut_claim_counterexample :
    ConsistentResolution c2Board [] c2Orders c2Rho ∧
    c2Rho 0 = false ∧
    ¬(∃ j < c2Orders.length,
      (c2Orders.getD j default).type = OrderType.move ∧
      (c2Orders.getD j default).dest = (c2Orders.getD 0 default).province ∧
      c2Board.same_team (c2Orders.getD j default).province
        (c2Orders.getD 0 default).province = false ∧
      (c2Orders.getD j default).province ≠ (c2Orders.getD 0 default).supporting ∧
      any_convoy_route [] c2Orders c2Rho (c2Orders.getD j default) = true) := by
  refine ⟨?_, rfl, ?_⟩
  · decide
  · decide

/-- Witness for the amended C2 at the same concrete game: with the source's
extra disjunct the characterization does hold. -/
theorem support_cut_characterization_witness :
    c2Rho 0 = false ↔ ∃ j < c2Orders.length,
      (c2Orders.getD j default).type = OrderType.move ∧
      (c2Orders.getD j default).dest = (c2Orders.getD 0 default).province ∧
      c2Board.same_team (c2Orders.getD j default).province
        (c2Orders.getD 0 default).province = false ∧
      ((c2Orders.getD j default).province ≠ (c2Orders.getD 0 default).supporting ∨
        c2Rho j = true) ∧
      any_convoy_route [] c2Orders c2Rho (c2Orders.getD j default) = true :=
  support_cut_characterization c2Board [] c2Orders c2Rho 0 (by decide) (by decide)
    (Or.inr (by decide))

/-- C1 (amended): for a consistent resolution, a Move order resolves true iff
it has a working convoy route AND its attack strength strictly exceeds the
defending side's strength (defend strength in a head-to-head battle, hold
strength of the destination otherwise) AND strictly exceeds the prevent
strength of every other move order targeting the same destination; whenever
the attack strength merely equals one of them, the move fails. -/
theorem move_resolution_characterization (b : Board) (routes : List (String × String))
    (orders : List Order) (rho : Nat → Bool) (i : Nat)
    (hcons : ConsistentResolution b routes orders rho)
    (hi : i < orders.length)
    (hm : (orders.getD i default).type = OrderType.move) :
    rho i = true ↔
      (any_convoy_route routes orders rho (orders.getD i default) = true ∧
       (if is_hth_battle orders (orders.getD i default) = true then
          defend_strength orders rho (orders.getD i default) <
            attack_strength b orders rho (orders.getD i default)
        else
          hold_strength b orders rho (orders.getD i default).dest <
            attack_strength b orders rho (orders.getD i default)) ∧
       ∀ j ∈ other_attacks orders i (orders.getD i default),
         prevent_strength routes orders rho (orders.getD j default) <
           attack_strength b orders rho (orders.getD i default)) := by
  rw [hcons i hi]
  have key : adjudicate b routes orders rho i =
      (if !(any_convoy_route routes orders rho (orders.getD i default)) then false
       else if (if is_hth_battle orders (orders.getD i default) then
           defend_strength orders rho (orders.getD i default) ≥
             attack_strength b orders rho (orders.getD i default)
         else
           hold_strength b orders rho (orders.getD i default).dest ≥
             attack_strength b orders rho (orders.getD i default)) then false
       else (other_attacks orders i (orders.getD i default)).all (fun j =>
         decide (prevent_strength routes orders rho (orders.getD j default) <
           attack_strength b orders rho (orders.getD i default)))) := by
    unfold adjudicate
    dsimp only
    rw [hm]
  rw [key]
  cases hroute : any_convoy_route routes orders rho (orders.getD i default) with
  | true =>
    rw [if_neg (by decide)]
    by_cases hcomp : (if is_hth_battle orders (orders.getD i default) then
        defend_strength orders rho (orders.getD i default) ≥
          attack_strength b orders rho (orders.getD i default)
      else
        hold_strength b orders rho (orders.getD i default).dest ≥
          attack_strength b orders rho (orders.getD i default))
    · rw [if_pos hcomp]
      constructor
      · intro hfalse
        exact absurd hfalse (by simp)
      · rintro ⟨-, hlt, -⟩
        by_cases hhth : is_hth_battle orders (orders.getD i default) = true
        · rw [if_pos hhth] at hcomp
          rw [if_pos hhth] at hlt
          omega
        · rw [if_neg hhth] at hcomp
          rw [if_neg hhth] at hlt
          omega
    · rw [if_neg hcomp]
      rw [List.all_eq_true]
      constructor
      · intro hall
        refine ⟨rfl, ?_, ?_⟩
        · by_cases hhth : is_hth_battle orders (orders.getD i default) = true
          · rw [if_pos hhth]
            rw [if_pos hhth] at hcomp
            omega
          · rw [if_neg hhth]
            rw [if_neg hhth] at hcomp
            omega
        · intro j hj
          exact of_decide_eq_true (hall j hj)
      · rintro ⟨-, -, hprev⟩
        intro j hj
        exact decide_eq_true (hprev j hj)
  | false =>
    rw [if_pos (by decide)]
    constructor
    · intro hfalse
      exact absurd hfalse (by simp)
    · rintro ⟨hr, -, -⟩
      exact absurd hr (by decide)

def c1Board : Board :=
  { nations := [("england",
      { units := [{ type := UnitType.Army, province := "lon" }] })],
    players := [("england", "ed")] }

def c1Orders : List Order :=
  [{ type := OrderType.move, id := "m lon bel convoy", province := "lon",
     dest := "bel", isConvoy := true }]

/-- Counterexample to C1 as stated: in a consistent resolution, a convoyed
move with no working convoy route fails although its attack strength (1)
strictly exceeds the hold strength of its empty destination (0), there is no
head-to-head battle and there are no competing attacks — the claim's
strength comparison alone predicts success, missing the convoy-route
requirement of the source's move case. -/
theorem move_resolution_claim_counterexample :
    ConsistentResolution c1Board [] c1Orders (fun _ => false) ∧
    (fun _ => false : Nat → Bool) 0 = false ∧
    is_hth_battle c1Orders (c1Orders.getD 0 default) = false ∧
    hold_strength c1Board c1Orders (fun _ => false) (c1Orders.getD 0 default).dest <
      attack_strength c1Board c1Orders (fun _ => false) (c1Orders.getD 0 default) ∧
    other_attacks c1Orders 0 (c1Orders.getD 0 default) = [] := by
  refine ⟨by decide, rfl, by decide, by decide, by decide⟩

def c1WBoard : Board :=
  { nations :=
      [("france", { units := [{ type := UnitType.Army, province := "par" }] }),
       ("italy", { units := [{ type := UnitType.Army, province := "mar" }] })],
    players := [("france", "fra"), ("italy", "ita")] }

def c1WOrders : List Order :=
  [{ type := OrderType.move, id := "m par bur", province := "par", dest := "bur" },
   { type := OrderType.move, id := "m mar bur", province := "mar", dest := "bur" }]

/-- Witness for the amended C1 at a concrete two-way bounce. -/
theorem move_resolution_characterization_witness :
    (fun _ => false : Nat → Bool) 0 = true ↔
      (any_convoy_route [] c1WOrders (fun _ => false) (c1WOrders.getD 0 default) = true ∧
       (if is_hth_battle c1WOrders (c1WOrders.getD 0 default) = true then
          defend_strength c1WOrders (fun _ => false) (c1WOrders.getD 0 default) <
            attack_strength c1WBoard c1WOrders (fun _ => false) (c1WOrders.getD 0 default)
        else
          hold_strength c1WBoard c1WOrders (fun _ => false)
              (c1WOrders.getD 0 default).dest <
            attack_strength c1WBoard c1WOrders (fun _ => false)
              (c1WOrders.getD 0 default)) ∧
       ∀ j ∈ other_attacks c1WOrders 0 (c1WOrders.getD 0 default),
         prevent_strength [] c1WOrders (fun _ => false) (c1WOrders.getD j default) <
           attack_strength c1WBoard c1WOrders (fun _ => false)
             (c1WOrders.getD 0 default)) :=
  move_resolution_characterization c1WBoard [] c1WOrders (fun _ => false) 0
    (by decide) (by decide) (by decide)

/-! ## The post-resolution bookkeeping of `calculate_orders`
(source lines 1003-1057): order results, dislodgements and the contested
set, relative to the final resolution assignment. -/

/-- The indices of successfully resolved move orders (source line 1007). -/
def successful_move_indices (orders : List Order) (rho : Nat → Bool) : List Nat :=
  (List.range orders.length).filter (fun i =>
    rho i && (orders.getD i default).type == OrderType.move)

/-- The `to_dislodge` list before filtering (source line 1008): destination
of each successful move paired with the attacker origin (empty when the
attacker was convoyed). -/
def to_dislodge_init (orders : List Order) (rho : Nat → Bool) :
    List (String × String) :=
  (successful_move_indices orders rho).map (fun i =>
    let o := orders.getD i default
    (o.dest, if o.isConvoy then "" else o.province))

/-- The `cannot_dislodge` list (source line 1009): origins of successful
moves. -/
def cannot_dislodge (orders : List Order) (rho : Nat → Bool) : List String :=
  (successful_move_indices orders rho).map (fun i => (orders.getD i default).province)

/-- The filtered `to_dislodge` list (source line 1024). -/
def to_dislodge (orders : List Order) (rho : Nat → Bool) : List (String × String) :=
  (to_dislodge_init orders rho).filter (fun dp =>
    !((cannot_dislodge orders rho).contains dp.1))

/-- The results stamped on the orders by `calculate_orders` (source lines
1018 and 1025-1033): success or fail per the resolution, overridden to
dislodged on the first order found at each dislodged province. -/
def order_results (orders : List Order) (rho : Nat → Bool) : List OrderResult :=
  (List.range orders.length).map (fun i =>
    let o := orders.getD i default
    if (to_dislodge orders rho).any (fun dp => dp.1 == o.province) &&
        orders.findIdx (fun o2 => o2.province == o.province) == i then
      OrderResult.dislodged
    else if rho i then OrderResult.success else OrderResult.fail)

/-- The `contested` accumulator as filled inside `adjudicate`'s move case
(source line 879): the destination of every move order whose convoy-route
check passes, de-duplicated in first-push order.  The source pushes during
resolution (also under guesses); under the final resolution this coincides
whenever the route checks do not change across guesses — in particular on
every input without convoy moves. -/
def contested_init (routes : List (String × String)) (orders : List Order)
    (rho : Nat → Bool) : List String :=
  (List.range orders.length).foldl (fun acc i =>
    let o := orders.getD i default
    if o.type == OrderType.move && any_convoy_route routes orders rho o &&
        !(acc.contains o.dest) then acc ++ [o.dest]
    else acc) []

/-- The failed move orders (source line 1045), as indices. -/
def failed_moves (orders : List Order) (rho : Nat → Bool) : List Nat :=
  (List.range orders.length).filter (fun i =>
    (orders.getD i default).type == OrderType.move &&
      (order_results orders rho).getD i OrderResult.fail != OrderResult.success)

/-- Embeds the final contested filter of `calculate_orders` (source lines
1046-1056) exactly as written: the counting loop ranges over every failed
move order — it never compares the failed move's destination with the
candidate province `p`, although the comment above the source loop says it
should — and keeps `p` as soon as the count reaches two.  The loop skips a
failed move only when it was dislodged by the unit arriving from its own
destination. -/
def contested_final (routes : List (String × String)) (orders : List Order)
    (rho : Nat → Bool) : List String :=
  (contested_init routes orders rho).filter (fun p =>
    if !((contested_init routes orders rho).contains p) then false
    else
      ((failed_moves orders rho).filter (fun i =>
        let o := orders.getD i default
        (order_results orders rho).getD i OrderResult.fail != OrderResult.dislodged ||
          !((to_dislodge orders rho).any (fun dp =>
            dp.1 == o.province && dp.2 == o.dest)))).length ≥ 2)

/-- The contested set as claim C6 (and the comment above the source loop)
describes it: provinces attacked by at least two failed move orders, not
counting an attacker that was dislodged by the unit arriving from that very
province. -/
def contested_claim (routes : List (String × String)) (orders : List Order)
    (rho : Nat → Bool) : List String :=
  (contested_init routes orders rho).filter (fun p =>
    ((failed_moves orders rho).filter (fun i =>
      let o := orders.getD i default
      o.dest == p &&
        ((order_results orders rho).getD i OrderResult.fail != OrderResult.dislodged ||
          !((to_dislodge orders rho).any (fun dp =>
            dp.1 == o.province && dp.2 == o.dest))))).length ≥ 2)

def c6Board : Board :=
  { nations :=
      [("france", { units := [{ type := UnitType.Army, province := "par" }] }),
       ("italy", { units := [{ type := UnitType.Army, province := "mar" }] }),
       ("germany", { units := [{ type := UnitType.Army, province := "kie" }] }),
       ("austria", { units := [{ type := UnitType.Army, province := "mun" }] })],
    players := [("france", "fra"), ("italy", "ita"), ("germany", "ger"),
      ("austria", "aus")] }

def c6Orders : List Order :=
  [{ type := OrderType.move, id := "m par bur", province := "par", dest := "bur" },
   { type := OrderType.move, id := "m mar bur", province := "mar", dest := "bur" },
   { type := OrderType.move, id := "m kie mun", province := "kie", dest := "mun" },
   { type := OrderType.hold, id := "h mun", province := "mun" }]

def c6Rho : Nat → Bool := fun i => i == 3

/-- C6 exhibits a code bug: at a concrete consistent adjudication (a two-way
bounce over bur plus a single failed attack on mun), the source's contested
filter keeps mun even though only one failed move attacked it, because its
counting loop counts every failed move instead of the failed moves attacking
the candidate province; the set the claim (and the source's own comment)
describes contains only bur. -/
theorem contested_filter_code_bug :
    ConsistentResolution c6Board [] c6Orders c6Rho ∧
    contested_final [] c6Orders c6Rho = ["bur", "mun"] ∧
    contested_claim [] c6Orders c6Rho = ["bur"] ∧
    ((failed_moves c6Orders c6Rho).filter (fun i =>
      (c6Orders.getD i default).dest == "mun")).length = 1 := by
  refine ⟨by decide, by decide, by decide, by decide⟩

/-! ## The backup rule (source lines 12-26, 949-981)

When the two guesses of `resolve` disagree (source lines 826-834), the cycle
slice `dep_list[startIdx..]` is handed to `backup_rule`, which classifies it
and settles or resets each member. -/

/-- The per-order resolution states of the resolver (resolutionStateEnum,
source lines 12-16). -/
inductive ResolutionState where
  | Unresolved
  | Guessing
  | Resolved
deriving DecidableEq, Repr

/-- The backup-rule classification (backupRuleType, source lines 23-26). -/
inductive BackupRuleType where
  | circle
  | convoy
deriving DecidableEq, Repr

/-- The resolver's mutable arrays: tentative resolutions, per-order states
and the dependency stack. -/
structure ResolverState where
  resolutions : List Bool
  resolutionStates : List ResolutionState
  dep_list : List Nat
deriving DecidableEq, Repr

/-- Embeds `backup_rule_type` (source lines 949-957): the slice is a convoy
paradox iff it contains a move order such that some Convoy order is stationed
at the move's destination — the move itself need not be convoyed; otherwise
it is a circular movement. -/
def backup_rule_type (orders : List Order) (dep_list : List Nat)
    (startIdx : Nat) : BackupRuleType :=
  if (dep_list.drop startIdx).any (fun i =>
      (orders.getD i default).type == OrderType.move &&
        orders.any (fun o => o.type == OrderType.convoy &&
          o.province == (orders.getD i default).dest)) then
    BackupRuleType.convoy
  else BackupRuleType.circle

/-- One assignment of the `backup_rule` loop (source lines 966-979) for the
cycle member `i`: under the convoy classification, Convoy orders and convoyed
Move orders are resolved to fail; under the circle classification Move orders
are resolved to succeed; every other member is reset to Unresolved. -/
def backup_rule_assign (t : BackupRuleType) (orders : List Order)
    (st : ResolverState) (i : Nat) : ResolverState :=
  let o := orders.getD i default
  if t == BackupRuleType.convoy && (o.type == OrderType.convoy ||
      (o.type == OrderType.move && o.isConvoy)) then
    { st with
        resolutions := st.resolutions.set i false,
        resolutionStates := st.resolutionStates.set i ResolutionState.Resolved }
  else if t == BackupRuleType.circle && o.type == OrderType.move then
    { st with
        resolutions := st.resolutions.set i true,
        resolutionStates := st.resolutionStates.set i ResolutionState.Resolved }
  else
    { st with resolutionStates := st.resolutionStates.set i ResolutionState.Unresolved }

/-- Embeds `backup_rule` (source lines 962-981): classify the slice
`dep_list[startIdx..]`, assign every member from the top of the stack down,
and truncate the dependency stack to `startIdx`. -/
def backup_rule (orders : List Order) (st : ResolverState) (startIdx : Nat) :
    ResolverState :=
  let t := backup_rule_type orders st.dep_list startIdx
  let st1 := (st.dep_list.drop startIdx).reverse.foldl (backup_rule_assign t orders) st
  { st1 with dep_list := st.dep_list.take startIdx }

/-- The resolution state `backup_rule` leaves on a cycle member. -/
def backup_rule_expected_state (t : BackupRuleType) (orders : List Order)
    (i : Nat) : ResolutionState :=
  let o := orders.getD i default
  if t == BackupRuleType.convoy && (o.type == OrderType.convoy ||
      (o.type == OrderType.move && o.isConvoy)) then ResolutionState.Resolved
  else if t == BackupRuleType.circle && o.type == OrderType.move then
    ResolutionState.Resolved
  else ResolutionState.Unresolved

/-- The resolution value `backup_rule` writes on a cycle member, when any. -/
def backup_rule_expected_res (t : BackupRuleType) (orders : List Order)
    (i : Nat) : Option Bool :=
  let o := orders.getD i default
  if t == BackupRuleType.convoy && (o.type == OrderType.convoy ||
      (o.type == OrderType.move && o.isConvoy)) then some false
  else if t == BackupRuleType.circle && o.type == OrderType.move then some true
  else none

/-- The classification as claim C3 states it: the cycle must contain a
convoyed Move (`isConvoy` true) whose destination hosts a Convoy order. -/
def backup_rule_type_claim (orders : List Order) (dep_list : List Nat)
    (startIdx : Nat) : BackupRuleType :=
  if (dep_list.drop startIdx).any (fun i =>
      (orders.getD i default).type == OrderType.move &&
        (orders.getD i default).isConvoy &&
        orders.any (fun o => o.type == OrderType.convoy &&
          o.province == (orders.getD i default).dest)) then
    BackupRuleType.convoy
  else BackupRuleType.circle

lemma getD_set_self {α : Type} {l : List α} {i : Nat} (h : i < l.length) (a d : α) :
    (l.set i a).getD i d = a := by
  simp [List.getD_eq_getElem?_getD, List.getElem?_set, h]

lemma getD_set_ne {α : Type} {l : List α} {i j : Nat} (h : i ≠ j) (a d : α) :
    (l.set i a).getD j d = l.getD j d := by
  simp [List.getD_eq_getElem?_getD, List.getElem?_set, h]

lemma backup_rule_assign_lengths (t : BackupRuleType) (orders : List Order)
    (st : ResolverState) (i : Nat) :
    (backup_rule_assign t orders st i).resolutions.length = st.resolutions.length ∧
    (backup_rule_assign t orders st i).resolutionStates.length =
      st.resolutionStates.length := by
  unfold backup_rule_assign
  dsimp only
  split_ifs <;> simp

lemma backup_rule_assign_dep (t : BackupRuleType) (orders : List Order)
    (st : ResolverState) (i : Nat) :
    (backup_rule_assign t orders st i).dep_list = st.dep_list := by
  unfold backup_rule_assign
  dsimp only
  split_ifs <;> rfl

lemma backup_rule_assign_states_getD (t : BackupRuleType) (orders : List Order)
    (st : ResolverState) (i j : Nat) (hj : j < st.resolutionStates.length) :
    (backup_rule_assign t orders st i).resolutionStates.getD j
        ResolutionState.Unresolved =
      if i = j then backup_rule_expected_state t orders j
      else st.resolutionStates.getD j ResolutionState.Unresolved := by
  unfold backup_rule_assign backup_rule_expected_state
  dsimp only
  by_cases hij : i = j
  · subst hij
    rw [if_pos rfl]
    split_ifs
    · rw [getD_set_self hj]
    · rw [getD_set_self hj]
    · rw [getD_set_self hj]
  · rw [if_neg hij]
    split_ifs
    · exact getD_set_ne hij _ _
    · exact getD_set_ne hij _ _
    · exact getD_set_ne hij _ _

lemma backup_rule_assign_res_getD (t : BackupRuleType) (orders : List Order)
    (st : ResolverState) (i j : Nat) (hj : j < st.resolutions.length) :
    (backup_rule_assign t orders st i).resolutions.getD j false =
      if i = j then
        match backup_rule_expected_res t orders j with
        | some v => v
        | none => st.resolutions.getD j false
      else st.resolutions.getD j false := by
  unfold backup_rule_assign backup_rule_expected_res
  dsimp only
  by_cases hij : i = j
  · subst hij
    rw [if_pos rfl]
    split_ifs
    · rw [getD_set_self hj]
    · rw [getD_set_self hj]
    · rfl
  · rw [if_neg hij]
    split_ifs
    · exact getD_set_ne hij _ _
    · exact getD_set_ne hij _ _
    · rfl

lemma backup_rule_foldl_lengths (t : BackupRuleType) (orders : List Order)
    (l : List Nat) :
    ∀ st : ResolverState,
    ((l.foldl (backup_rule_assign t orders) st).resolutions.length =
      st.resolutions.length) ∧
    ((l.foldl (backup_rule_assign t orders) st).resolutionStates.length =
      st.resolutionStates.length) := by
  induction l with
  | nil => exact fun st => ⟨rfl, rfl⟩
  | cons a l ih =>
    intro st
    have h1 := backup_rule_assign_lengths t orders st a
    have h3 := ih (backup_rule_assign t orders st a)
    simp only [List.foldl_cons]
    exact ⟨h3.1.trans h1.1, h3.2.trans h1.2⟩

lemma backup_rule_foldl_states (t : BackupRuleType) (orders : List Order)
    (l : List Nat) :
    ∀ (st : ResolverState) (j : Nat), j < st.resolutionStates.length →
    (l.foldl (backup_rule_assign t orders) st).resolutionStates.getD j
        ResolutionState.Unresolved =
      if j ∈ l then backup_rule_expected_state t orders j
      else st.resolutionStates.getD j ResolutionState.Unresolved := by
  induction l with
  | nil => intro st j _; simp
  | cons a l ih =>
    intro st j hj
    simp only [List.foldl_cons]
    have hj' : j < (backup_rule_assign t orders st a).resolutionStates.length := by
      rw [(backup_rule_assign_lengths t orders st a).2]; exact hj
    rw [ih _ j hj']
    by_cases hmem : j ∈ l
    · simp [hmem]
    · rw [backup_rule_assign_states_getD t orders st a j hj]
      by_cases haj : a = j
      · subst haj
        simp
      · have hne : ¬(j = a) := fun h => haj h.symm
        simp [List.mem_cons, hmem, hne, haj]

lemma backup_rule_foldl_res (t : BackupRuleType) (orders : List Order)
    (l : List Nat) :
    ∀ (st : ResolverState) (j : Nat), j < st.resolutions.length →
    (l.foldl (backup_rule_assign t orders) st).resolutions.getD j false =
      if j ∈ l then
        match backup_rule_expected_res t orders j with
        | some v => v
        | none => st.resolutions.getD j false
      else st.resolutions.getD j false := by
  induction l with
  | nil => intro st j _; simp
  | cons a l ih =>
    intro st j hj
    simp only [List.foldl_cons]
    have hj' : j < (backup_rule_assign t orders st a).resolutions.length := by
      rw [(backup_rule_assign_lengths t orders st a).1]; exact hj
    rw [ih _ j hj']
    have hstep := backup_rule_assign_res_getD t orders st a j hj
    by_cases hmem : j ∈ l
    · rw [if_pos hmem, if_pos (List.mem_cons_of_mem a hmem)]
      cases hexp : backup_rule_expected_res t orders j with
      | some v => rfl
      | none =>
        by_cases haj : a = j
        · rw [if_pos haj, hexp] at hstep
          exact hstep
        · rw [if_neg haj] at hstep
          exact hstep
    · rw [if_neg hmem]
      by_cases haj : a = j
      · have hjc : j ∈ a :: l := by
          rw [← haj]; exact List.mem_cons_self a l
        rw [if_pos hjc]
        rw [if_pos haj] at hstep
        exact hstep
      · have hjcons : j ∉ a :: l := by
          intro hc
          rcases List.mem_cons.mp hc with h | h
          · exact haj h.symm
          · exact hmem h
        rw [if_neg hjcons]
        rw [if_neg haj] at hstep
        exact hstep

lemma backup_rule_foldl_frame (t : BackupRuleType) (orders : List Order)
    (l : List Nat) :
    ∀ (st : ResolverState) (j : Nat), j ∉ l →
    (l.foldl (backup_rule_assign t orders) st).resolutionStates.getD j
        ResolutionState.Unresolved =
      st.resolutionStates.getD j ResolutionState.Unresolved ∧
    (l.foldl (backup_rule_assign t orders) st).resolutions.getD j false =
      st.resolutions.getD j false := by
  induction l with
  | nil => intro st j _; exact ⟨rfl, rfl⟩
  | cons a l ih =>
    intro st j hj
    have hja : j ≠ a := fun h => hj (by rw [h]; exact List.mem_cons_self a l)
    have hjl : j ∉ l := fun h => hj (List.mem_cons_of_mem a h)
    simp only [List.foldl_cons]
    rcases ih (backup_rule_assign t orders st a) j hjl with ⟨h1, h2⟩
    refine ⟨h1.trans ?_, h2.trans ?_⟩
    · unfold backup_rule_assign
      dsimp only
      split_ifs
      · exact getD_set_ne (fun h => hja h.symm) _ _
      · exact getD_set_ne (fun h => hja h.symm) _ _
      · exact getD_set_ne (fun h => hja h.symm) _ _
    · unfold backup_rule_assign
      dsimp only
      split_ifs
      · exact getD_set_ne (fun h => hja h.symm) _ _
      · exact getD_set_ne (fun h => hja h.symm) _ _
      · rfl

/-- C3 (amended): when the guess-based resolver meets a paradoxical cycle
(the two guesses disagree) and invokes the backup rule on the cycle slice
`dep_list[startIdx..]`: the slice is classified a convoy paradox iff it
contains a Move order (convoyed or not) whose destination province hosts some
Convoy order; under the convoy classification every Convoy order and every
convoyed Move order of the slice is resolved to fail, under the circular
classification every Move order of the slice is resolved to succeed, every
remaining slice member is reset to Unresolved (its tentative resolution
untouched), members outside the slice are untouched, and the dependency
stack is truncated to `startIdx`. -/
theorem backup_rule_characterization (orders : List Order) (st : ResolverState)
    (startIdx : Nat)
    (hres : st.resolutions.length = orders.length)
    (hstates : st.resolutionStates.length = orders.length)
    (hdep : ∀ j ∈ st.dep_list, j < orders.length) :
    (backup_rule_type orders st.dep_list startIdx = BackupRuleType.convoy ↔
      ∃ i ∈ st.dep_list.drop startIdx,
        (orders.getD i default).type = OrderType.move ∧
        ∃ o ∈ orders, o.type = OrderType.convoy ∧
          o.province = (orders.getD i default).dest) ∧
    (backup_rule orders st startIdx).dep_list = st.dep_list.take startIdx ∧
    (∀ i ∈ st.dep_list.drop startIdx,
      (backup_rule orders st startIdx).resolutionStates.getD i
          ResolutionState.Unresolved =
        backup_rule_expected_state (backup_rule_type orders st.dep_list startIdx)
          orders i ∧
      (∀ v, backup_rule_expected_res (backup_rule_type orders st.dep_list startIdx)
          orders i = some v →
        (backup_rule orders st startIdx).resolutions.getD i false = v) ∧
      (backup_rule_expected_res (backup_rule_type orders st.dep_list startIdx)
          orders i = none →
        (backup_rule orders st startIdx).resolutions.getD i false =
          st.resolutions.getD i false)) ∧
    (∀ i, i ∉ st.dep_list.drop startIdx →
      (backup_rule orders st startIdx).resolutionStates.getD i
          ResolutionState.Unresolved =
        st.resolutionStates.getD i ResolutionState.Unresolved ∧
      (backup_rule orders st startIdx).resolutions.getD i false =
        st.resolutions.getD i false) := by
  have hstates_eq : (backup_rule orders st startIdx).resolutionStates =
      ((st.dep_list.drop startIdx).reverse.foldl
        (backup_rule_assign (backup_rule_type orders st.dep_list startIdx) orders)
        st).resolutionStates := rfl
  have hres_eq : (backup_rule orders st startIdx).resolutions =
      ((st.dep_list.drop startIdx).reverse.foldl
        (backup_rule_assign (backup_rule_type orders st.dep_list startIdx) orders)
        st).resolutions := rfl
  refine ⟨?_, rfl, ?_, ?_⟩
  · unfold backup_rule_type
    by_cases h : ((st.dep_list.drop startIdx).any (fun i =>
        (orders.getD i default).type == OrderType.move &&
          orders.any (fun o => o.type == OrderType.convoy &&
            o.province == (orders.getD i default).dest))) = true
    · rw [if_pos h]
      simp only [true_iff]
      rcases List.any_eq_true.mp h with ⟨i, hi, hcond⟩
      simp only [Bool.and_eq_true, beq_iff_eq] at hcond
      rcases hcond with ⟨h1, h2⟩
      rcases List.any_eq_true.mp h2 with ⟨o, ho, hoc⟩
      simp only [Bool.and_eq_true, beq_iff_eq] at hoc
      exact ⟨i, hi, h1, o, ho, hoc.1, hoc.2⟩
    · rw [if_neg h]
      constructor
      · intro hc
        exact absurd hc (by simp)
      · rintro ⟨i, hi, h1, o, ho, hoc1, hoc2⟩
        exfalso
        apply h
        refine List.any_eq_true.mpr ⟨i, hi, ?_⟩
        simp only [Bool.and_eq_true, beq_iff_eq]
        exact ⟨h1, List.any_eq_true.mpr ⟨o, ho, by simp [hoc1, hoc2]⟩⟩
  · intro i hi
    have hilen : i < orders.length := hdep i (List.mem_of_mem_drop hi)
    have hirev : i ∈ (st.dep_list.drop startIdx).reverse := List.mem_reverse.mpr hi
    have h1 := backup_rule_foldl_states
      (backup_rule_type orders st.dep_list startIdx) orders
      (st.dep_list.drop startIdx).reverse st i (by rw [hstates]; exact hilen)
    have h2 := backup_rule_foldl_res
      (backup_rule_type orders st.dep_list startIdx) orders
      (st.dep_list.drop startIdx).reverse st i (by rw [hres]; exact hilen)
    rw [if_pos hirev] at h1 h2
    refine ⟨by rw [hstates_eq]; exact h1, ?_, ?_⟩
    · intro v hv
      rw [hres_eq, h2, hv]
    · intro hv
      rw [hres_eq, h2, hv]
  · intro i hi
    have hirev : i ∉ (st.dep_list.drop startIdx).reverse := by
      rw [List.mem_reverse]; exact hi
    have := backup_rule_foldl_frame
      (backup_rule_type orders st.dep_list startIdx) orders
      (st.dep_list.drop startIdx).reverse st i hirev
    exact ⟨by rw [hstates_eq]; exact this.1, by rw [hres_eq]; exact this.2⟩

def c3Orders : List Order :=
  [{ type := OrderType.convoy, id := "c eng", province := "eng", start := "lon",
     endProv := "bel" },
   { type := OrderType.move, id := "m bre eng", province := "bre", dest := "eng" },
   { type := OrderType.supportMove, id := "s bel", province := "bel",
     supporting := "eng", fromProv := "bre" },
   { type := OrderType.move, id := "m lon bel", province := "lon", dest := "bel",
     isConvoy := true }]

def c3St : ResolverState :=
  { resolutions := [false, false, false, false],
    resolutionStates := [ResolutionState.Guessing, ResolutionState.Guessing,
      ResolutionState.Guessing, ResolutionState.Unresolved],
    dep_list := [0, 1, 2] }

/-- Counterexample to C3 as stated: a paradoxical cycle consisting of the
convoying fleet at eng, the attack bre to eng and the support at bel for that
attack contains no convoyed Move order (the convoyed move lon to bel is
outside the cycle), so the claim's classification calls it circular movement
and would resolve the cycle's Move order to succeed; the source classifies it
as a convoy paradox — the cycle's move attacks a province hosting a Convoy
order — resolves the Convoy order to fail and resets the Move to Unresolved. -/
theorem backup_rule_claim_counterexample :
    backup_rule_type c3Orders [0, 1, 2] 0 = BackupRuleType.convoy ∧
    backup_rule_type_claim c3Orders [0, 1, 2] 0 = BackupRuleType.circle ∧
    (∀ i ∈ ([0, 1, 2] : List Nat),
      ¬((c3Orders.getD i default).type = OrderType.move ∧
        (c3Orders.getD i default).isConvoy = true)) ∧
    (backup_rule c3Orders c3St 0).resolutionStates.getD 1
      ResolutionState.Unresolved = ResolutionState.Unresolved ∧
    (backup_rule c3Orders c3St 0).resolutionStates.getD 0
      ResolutionState.Unresolved = ResolutionState.Resolved ∧
    (backup_rule c3Orders c3St 0).resolutions.getD 0 false = false := by
  refine ⟨by decide, by decide, by decide, by decide, by decide, by decide⟩

/-- Witness for the amended C3 at the concrete convoy-paradox cycle. -/
theorem backup_rule_characterization_witness :
    (backup_rule_type c3Orders c3St.dep_list 0 = BackupRuleType.convoy ↔
      ∃ i ∈ c3St.dep_list.drop 0,
        (c3Orders.getD i default).type = OrderType.move ∧
        ∃ o ∈ c3Orders, o.type = OrderType.convoy ∧
          o.province = (c3Orders.getD i default).dest) ∧
    (backup_rule c3Orders c3St 0).dep_list = c3St.dep_list.take 0 ∧
    (∀ i ∈ c3St.dep_list.drop 0,
      (backup_rule c3Orders c3St 0).resolutionStates.getD i
          ResolutionState.Unresolved =
        backup_rule_expected_state (backup_rule_type c3Orders c3St.dep_list 0)
          c3Orders i ∧
      (∀ v, backup_rule_expected_res (backup_rule_type c3Orders c3St.dep_list 0)
          c3Orders i = some v →
        (backup_rule c3Orders c3St 0).resolutions.getD i false = v) ∧
      (backup_rule_expected_res (backup_rule_type c3Orders c3St.dep_list 0)
          c3Orders i = none →
        (backup_rule c3Orders c3St 0).resolutions.getD i false =
          c3St.resolutions.getD i false)) ∧
    (∀ i, i ∉ c3St.dep_list.drop 0 →
      (backup_rule c3Orders c3St 0).resolutionStates.getD i
          ResolutionState.Unresolved =
        c3St.resolutionStates.getD i ResolutionState.Unresolved ∧
      (backup_rule c3Orders c3St 0).resolutions.getD i false =
        c3St.resolutions.getD i false) :=
  backup_rule_characterization c3Orders c3St 0 (by decide) (by decide) (by decide)

end Diplomacy
